import Mathlib

/-!
Shallow embedding of the Qdrant Memory extension (src/index.js) and proofs of
the behavioural claims about it.

The repository's single source file contains two concatenated variants of the
extension script; since later JavaScript function declarations override
earlier ones, the second variant (src/index.js lines 1733-3732) is the
effective code, and it is the one embedded here.  Host and platform
primitives that the script calls (Number, Date.parse, Date#toISOString,
Math.random via generateUUID, fetch outcomes, the SillyTavern context) are
modelled as explicit parameters, so every definition is a pure, executable
function of its inputs.
-/

namespace QdrantMemory

/-- Whitespace recognised by the model of JavaScript String#trim. -/
def isJsSpace (c : Char) : Bool :=
  c = ' ' || c = '\t' || c = '\n' || c = '\r'

/-- Model of JavaScript String#trim: drop leading and trailing whitespace. -/
def jsTrim (s : String) : String :=
  ⟨((s.data.dropWhile isJsSpace).reverse.dropWhile isJsSpace).reverse⟩

/-- Model of JavaScript String#toLowerCase (ASCII case folding). -/
def jsToLower (s : String) : String :=
  ⟨s.data.map Char.toLower⟩

/-- Model of JavaScript Array#join with a separator. -/
def jsJoin (sep : String) : List String → String
  | [] => ""
  | [x] => x
  | x :: y :: rest => x ++ sep ++ jsJoin sep (y :: rest)

/-! ## Temporal Normalizer (src/index.js 1803-1825, `normalizeSendDate`) -/

/-- The heterogeneous timestamp input accepted by `normalizeSendDate`:
a Date object, a raw number, a string, or anything else (undefined, null,
objects), for which `typeof` matches none of the three tested cases. -/
inductive SendDate where
  | dateObj (epochMs : Int)
  | num (n : Int)
  | str (s : String)
  | other
deriving DecidableEq, Repr

/-- `normalizeSendDate` (src/index.js 1803-1825).  `jsNumber` models the
JavaScript `Number(string)` conversion (`none` = NaN) and `jsDateParse`
models `Date.parse` (`none` = NaN); both are host primitives passed in
explicitly.  A Date object yields its `getTime()` epoch value, a number is
returned as is, a string is first fed to `Number` and only on NaN to
`Date.parse`, and every other input falls through to the `null` sentinel. -/
def normalizeSendDate (jsNumber jsDateParse : String → Option Int) :
    SendDate → Option Int
  | .dateObj epochMs => some epochMs
  | .num n => some n
  | .str s =>
    match jsNumber s with
    | some numeric => some numeric
    | none =>
      match jsDateParse s with
      | some parsed => some parsed
      | none => none
  | .other => none

/-! ## Chunk Builder (src/index.js 2385-2422 and 2946-2984) -/

/-- An entry of the live `messageBuffer`, as pushed by `bufferMessage`
(src/index.js 2544): `{ text, characterName, isUser, messageId }`. -/
structure BufferedMsg where
  text : String
  characterName : String
  isUser : Bool
  messageId : String
deriving DecidableEq, Repr

/-- A filtered replay message built by `createChunksFromChat`
(src/index.js 2910-2916); unlike a `BufferedMsg` it carries a timestamp. -/
structure ReplayMsg where
  text : String
  characterName : String
  isUser : Bool
  messageId : String
  timestamp : Int
deriving DecidableEq, Repr

/-- A finalized memory unit as returned by the two chunk builders. -/
structure Chunk where
  text : String
  speakers : List String
  messageIds : List String
  messageCount : Nat
  timestamp : Int
deriving DecidableEq, Repr

/-- The per-line speaker label: `msg.isUser ? "You" : msg.characterName`
(src/index.js 2396 and 2953). -/
def speakerLabel (isUser : Bool) (characterName : String) : String :=
  if isUser then "You" else characterName

/-- JavaScript `Set.add` followed by `Array.from`: insertion-order list of
distinct elements. -/
def addDistinct (acc : List String) (x : String) : List String :=
  if x ∈ acc then acc else acc ++ [x]

/-- `createChunkFromBuffer` (src/index.js 2385-2422).  `formatDateISO`
models `(new Date(ts)).toISOString().split("T")[0]`, with `none` standing
for a thrown RangeError (caught by the source's try/catch, which then omits
the date line); `now` models `Date.now()` at assembly time.  Returns `null`
on an empty buffer; otherwise builds the labelled transcript, the
insertion-ordered speaker set and the member id list, and stamps the chunk
with the assembly time. -/
def createChunkFromBuffer (formatDateISO : Int → Option String) (now : Int)
    (messageBuffer : List BufferedMsg) : Option Chunk :=
  if messageBuffer.isEmpty then none
  else
    let chunkText := messageBuffer.foldl
      (fun acc m => acc ++ speakerLabel m.isUser m.characterName ++ ": " ++ m.text ++ "\n") ""
    let speakers := messageBuffer.foldl
      (fun acc m => addDistinct acc (speakerLabel m.isUser m.characterName)) []
    let messageIds := messageBuffer.map (·.messageId)
    let trimmed := jsTrim chunkText
    let finalText :=
      match formatDateISO now with
      | some dateStr => "[" ++ dateStr ++ "]\n" ++ trimmed
      | none => trimmed
    some { text := finalText
           speakers := speakers
           messageIds := messageIds
           messageCount := messageBuffer.length
           timestamp := now }

/-- `createChunkFromMessages` (src/index.js 2946-2984), the replay-path chunk
builder.  `oldest` models the `Number.POSITIVE_INFINITY` fold (`none` =
infinity, i.e. no member timestamp seen).  The date line is prepended only
when a finite oldest timestamp exists and formatting does not throw; the
representative timestamp is the oldest member timestamp, falling back to
`Date.now()` (`now`) when no member had one. -/
def createChunkFromMessages (formatDateISO : Int → Option String) (now : Int)
    (messages : List ReplayMsg) : Chunk :=
  let chunkText := messages.foldl
    (fun acc m => acc ++ speakerLabel m.isUser m.characterName ++ ": " ++ m.text ++ "\n") ""
  let speakers := messages.foldl
    (fun acc m => addDistinct acc (speakerLabel m.isUser m.characterName)) []
  let messageIds := messages.map (·.messageId)
  let oldest := messages.foldl
    (fun acc m =>
      match acc with
      | none => some m.timestamp
      | some t => if m.timestamp < t then some m.timestamp else some t) none
  let trimmed := jsTrim chunkText
  let finalText :=
    match oldest with
    | some t =>
      match formatDateISO t with
      | some dateStr => "[" ++ dateStr ++ "]\n" ++ trimmed
      | none => trimmed
    | none => trimmed
  { text := finalText
    speakers := speakers
    messageIds := messageIds
    messageCount := messages.length
    timestamp := match oldest with | some t => t | none => now }

/-! ## Settings (src/index.js 1737-1763) and provider helpers (1773-1797) -/

/-- The extension settings record (src/index.js 1737-1761), restricted to the
fields read by the embedded functions.  `scoreThreshold` is an opaque
pass-through value (a JS float) and is modelled as a rational. -/
structure Settings where
  enabled : Bool
  provider : String
  apiKey : String
  openaiApiKey : String
  collectionName : String
  memoryLimit : Nat
  scoreThreshold : Rat
  memoryPosition : Nat
  usePerCharacterCollections : Bool
  autoSaveMemories : Bool
  saveUserMessages : Bool
  saveCharacterMessages : Bool
  minMessageLength : Nat
  retainRecentMessages : Nat
  chunkMinSize : Nat
  chunkMaxSize : Nat
  chunkTimeout : Nat
deriving DecidableEq, Repr

/-- `getEffectiveEmbeddingApiKey` (src/index.js 1773-1778):
`settings.apiKey || settings.openaiApiKey || ""` with JS falsiness of the
empty string. -/
def getEffectiveEmbeddingApiKey (s : Settings) : String :=
  if s.apiKey ≠ "" then s.apiKey
  else if s.openaiApiKey ≠ "" then s.openaiApiKey
  else ""

/-- `providerRequiresApiKey` (src/index.js 1794-1797). -/
def providerRequiresApiKey (provider : String) : Bool :=
  let normalized := jsToLower provider
  normalized = "openai" || normalized = "openrouter" || normalized = "huggingface"

/-- Collection Router: `getCollectionName`'s sanitization pipeline
(src/index.js 1873-1886).  `sanitizeChar` models the regex replacement
`[^a-z0-9_-] -> "_"` applied after lowercasing. -/
def sanitizeChar (c : Char) : Char :=
  if ('a' ≤ c ∧ c ≤ 'z') ∨ ('0' ≤ c ∧ c ≤ '9') ∨ c = '_' ∨ c = '-' then c else '_'

/-- The regex replacement `_+ -> "_"`: collapse runs of underscores. -/
def collapseUnderscores : List Char → List Char
  | [] => []
  | [c] => [c]
  | c1 :: c2 :: rest =>
    if c1 = '_' ∧ c2 = '_' then collapseUnderscores (c2 :: rest)
    else c1 :: collapseUnderscores (c2 :: rest)

/-- The regex replacement `(^_|_$) -> ""`: remove one leading and one
trailing underscore (after collapsing, runs no longer occur). -/
def stripEdgeUnderscore (cs : List Char) : List Char :=
  let cs1 := match cs with | '_' :: rest => rest | _ => cs
  match cs1.reverse with | '_' :: rest => rest.reverse | _ => cs1

/-- `getCollectionName` (src/index.js 1873-1886): the shared base collection
when per-character collections are off, otherwise base + "_" + sanitized
character name. -/
def getCollectionName (s : Settings) (characterName : String) : String :=
  if !s.usePerCharacterCollections then s.collectionName
  else
    let sanitized : String :=
      ⟨stripEdgeUnderscore (collapseUnderscores ((jsToLower characterName).data.map sanitizeChar))⟩
    s.collectionName ++ "_" ++ sanitized

/-! ## Embedding Provider Adapter (src/index.js 2158-2235, `generateEmbedding`) -/

/-- A JSON value, as produced by `response.json()`. -/
inductive Json where
  | null
  | bool (b : Bool)
  | num (n : Int)
  | str (s : String)
  | arr (items : List Json)
  | obj (fields : List (String × Json))

/-- JavaScript truthiness of a JSON value. -/
def Json.truthy : Json → Bool
  | .null => false
  | .bool b => b
  | .num n => n ≠ 0
  | .str s => s ≠ ""
  | .arr _ => true
  | .obj _ => true

/-- Property access `v.key` combined with optional chaining: an object field
lookup, `none` (undefined) on everything else. -/
def Json.getField : Json → String → Option Json
  | .obj fields, key => fields.lookup key
  | _, _ => none

/-- Index access `v[i]` on a non-null value (the null case throws in JS and
is handled at the call sites): an array yields its element (undefined when
out of range), an object yields its property named by the decimal index
("0" for index 0), a string yields its one-character substring, and the
other primitives yield undefined.  A `none` result models JS undefined. -/
def Json.getIndex : Json → Nat → Option Json
  | .arr items, i => items[i]?
  | .obj fields, i => fields.lookup (toString i)
  | .str s, i => (s.data[i]?).map fun c => .str ⟨[c]⟩
  | _, _ => none

/-- What the awaited `fetch` + `response.json()` pair can produce for the
adapter: a thrown network error, a non-2xx response, a 2xx response whose
body fails to parse as JSON, or a parsed JSON body. -/
inductive FetchOutcome where
  | netError
  | httpError
  | okBadJson
  | okJson (body : Json)

/-- The response-handling half of `generateEmbedding` (src/index.js
2206-2234), the part the adapter contract is about.  A thrown fetch, a
non-ok status and an unparsable body are all caught or checked and
normalized to `null` (`none`).  On a parsed `null` body both branches throw
a TypeError (`null[0]` in the huggingface branch, `null.data` in the
others); the surrounding catch normalizes that to `null` as well.  On any
other parsed body: for the exact provider string "huggingface" (the source
compares `provider === "huggingface"` without lowercasing here) the value
is `Array.isArray(json[0]) ? json[0] : json`, returned verbatim; for every
other provider the truthy value of `json.data?.[0]?.embedding` is returned
verbatim (the accesses after `?.` never throw: a null or undefined link
short-circuits, which `Option.bind` with the none-on-null accessors
models), and `null` is returned when that chain is undefined or falsy. -/
def generateEmbedding (provider : String) (outcome : FetchOutcome) : Option Json :=
  match outcome with
  | .netError => none
  | .httpError => none
  | .okBadJson => none
  | .okJson json =>
    if provider = "huggingface" then
      match json with
      | .null => none
      | _ =>
        match json.getIndex 0 with
        | some (.arr first) => some (.arr first)
        | _ => some json
    else
      match json with
      | .null => none
      | _ =>
        match (json.getField "data").bind (fun d => d.getIndex 0)
                |>.bind (fun e => e.getField "embedding") with
        | some v => if v.truthy then some v else none
        | none => none

/-- Spec-side predicate (from the claim's words, not from the source): a
JSON value that is a numeric vector. -/
def Json.isNumericVector : Json → Bool
  | .arr items => items.all fun x => match x with | .num _ => true | _ => false
  | _ => false

/-! ## Buffering State Machine (src/index.js 2534-2587, `bufferMessage`) -/

/-- The externally visible consequence of one `bufferMessage` call:
rejected as a no-op, an immediate synchronous `processMessageBuffer` call,
or an armed flush timer with the given delay in milliseconds. -/
inductive BufferAction where
  | rejected
  | flushNow
  | armTimer (delayMs : Nat)
deriving DecidableEq, Repr

/-- The mutable module state touched by `bufferMessage`: the message buffer
and the pending chunk timer (`none` = no live timer; `clearTimeout` makes a
timer not pending). -/
structure BufferState where
  messageBuffer : List BufferedMsg
  chunkTimer : Option Nat
deriving DecidableEq, Repr

/-- The buffer-size recomputation of src/index.js 2548-2551: a fold adding
`text.length + characterName.length + 4` per buffered message. -/
def bufferSize (buf : List BufferedMsg) : Nat :=
  buf.foldl (fun acc m => acc + m.text.length + m.characterName.length + 4) 0

/-- `bufferMessage` (src/index.js 2534-2587).  The four rejection guards run
in source order; past them the turn is appended, the size recomputed, any
pending timer cancelled, and then either an immediate flush (size ≥ max), a
5000 ms timer (size ≥ min) or the configured long timeout is chosen. -/
def bufferMessage (s : Settings) (st : BufferState)
    (text characterName : String) (isUser : Bool) (messageId : String) :
    BufferState × BufferAction :=
  if !s.autoSaveMemories then (st, .rejected)
  else if providerRequiresApiKey s.provider && getEffectiveEmbeddingApiKey s = "" then
    (st, .rejected)
  else if text.length < s.minMessageLength then (st, .rejected)
  else if isUser && !s.saveUserMessages then (st, .rejected)
  else if !isUser && !s.saveCharacterMessages then (st, .rejected)
  else
    let newBuffer := st.messageBuffer ++ [⟨text, characterName, isUser, messageId⟩]
    let size := bufferSize newBuffer
    if size ≥ s.chunkMaxSize then
      ({ messageBuffer := newBuffer, chunkTimer := none }, .flushNow)
    else if size ≥ s.chunkMinSize then
      ({ messageBuffer := newBuffer, chunkTimer := some 5000 }, .armTimer 5000)
    else
      ({ messageBuffer := newBuffer, chunkTimer := some s.chunkTimeout },
        .armTimer s.chunkTimeout)

/-- The object pushed onto the buffer by `bufferMessage`
(src/index.js 2544): `{ text, characterName, isUser, messageId }`. -/
def pushedTurn (text characterName : String) (isUser : Bool) (messageId : String) :
    BufferedMsg :=
  { text := text, characterName := characterName, isUser := isUser, messageId := messageId }

/-- Spec-side predicate (the claim's wording): `addTurn` is a no-op exactly
when auto-save is disabled, the configured provider requires an API key and
none is set, the turn text is below the minimum-length threshold, or the
save-type toggles exclude the turn's user/character flag. -/
def isNoOpTurn (s : Settings) (text : String) (isUser : Bool) : Prop :=
  s.autoSaveMemories = false ∨
  (providerRequiresApiKey s.provider = true ∧ getEffectiveEmbeddingApiKey s = "") ∨
  text.length < s.minMessageLength ∨
  (isUser = true ∧ s.saveUserMessages = false) ∨
  (isUser = false ∧ s.saveCharacterMessages = false)

instance (s : Settings) (text : String) (isUser : Bool) :
    Decidable (isNoOpTurn s text isUser) := by
  unfold isNoOpTurn
  infer_instance

/-! ## Flush (src/index.js 2424-2532, `saveChunkToQdrant` / `processMessageBuffer`) -/

/-- The payload written with each point (src/index.js 2438-2462):
the chunk fields, `speakers` joined with ", ", `messageIds` joined with
",", the chunk discriminator, plus the owning participant's name. -/
structure PointPayload where
  text : String
  speakers : String
  messageCount : Nat
  timestamp : Int
  messageIds : String
  isChunk : Bool
  character : String
deriving DecidableEq, Repr

/-- A point as upserted into a collection (src/index.js 2465-2479). -/
structure StoredPoint where
  collection : String
  id : String
  vector : List Int
  payload : PointPayload
deriving DecidableEq, Repr

/-- The payload built for one participant (src/index.js 2438-2445 and
2459-2462): the shared chunk payload with `character` set to that
participant. -/
def chunkPayload (chunk : Chunk) (characterName : String) : PointPayload :=
  { text := chunk.text
    speakers := jsJoin ", " chunk.speakers
    messageCount := chunk.messageCount
    timestamp := chunk.timestamp
    messageIds := jsJoin "," chunk.messageIds
    isChunk := true
    character := characterName }

/-- One participant's branch of the `participants.map` in `saveChunkToQdrant`
(src/index.js 2448-2496).  `collectionReady` models the awaited
`ensureCollection` result and `writeOk` the upsert `response.ok`; the branch
yields a stored point exactly when both succeed, which is also when it
reports `true` into `successCount`. -/
def saveOneParticipant (s : Settings) (uuid : String) (embedding : List Int)
    (chunk : Chunk) (collectionReady writeOk : String → Bool)
    (characterName : String) : Option StoredPoint :=
  if collectionReady characterName && writeOk characterName then
    some { collection := getCollectionName s characterName
           id := uuid
           vector := embedding
           payload := chunkPayload chunk characterName }
  else none

/-- `saveChunkToQdrant` (src/index.js 2424-2510).  `embeddingResult` is the
awaited `generateEmbedding` outcome (`none` = failure) and `uuid` the single
`generateUUID()` value drawn before the per-participant writes.  Returns the
aggregate success flag (`successCount > 0`) together with the points that
were actually stored. -/
def saveChunkToQdrant (s : Settings) (embeddingResult : Option (List Int))
    (uuid : String) (collectionReady writeOk : String → Bool)
    (chunk : Chunk) (participants : List String) : Bool × List StoredPoint :=
  if participants.isEmpty then (false, [])
  else
    match embeddingResult with
    | none => (false, [])
    | some embedding =>
      let storedPoints := participants.filterMap
        (saveOneParticipant s uuid embedding chunk collectionReady writeOk)
      (storedPoints.length > 0, storedPoints)

/-- The observable outcome of one `processMessageBuffer` run: the final
`messageBuffer` and the chunk handed to `saveChunkToQdrant` (if any). -/
structure FlushOutcome where
  finalBuffer : List BufferedMsg
  flushedChunk : Option Chunk
deriving DecidableEq, Repr

/-- `processMessageBuffer` (src/index.js 2512-2532) run without interference:
empty-buffer early return; otherwise snapshot the buffer into a chunk,
resolve participants, clear and return if none, else `await
saveChunkToQdrant` (its result `saveResult` is ignored) and only then clear
the buffer. -/
def processMessageBuffer (formatDateISO : Int → Option String) (now : Int)
    (participants : List String) (_saveResult : Bool)
    (messageBuffer : List BufferedMsg) : FlushOutcome :=
  if messageBuffer.isEmpty then { finalBuffer := messageBuffer, flushedChunk := none }
  else
    match createChunkFromBuffer formatDateISO now messageBuffer with
    | none => { finalBuffer := messageBuffer, flushedChunk := none }
    | some chunk =>
      if participants.isEmpty then { finalBuffer := [], flushedChunk := none }
      else { finalBuffer := [], flushedChunk := some chunk }

/-- `processMessageBuffer` (src/index.js 2512-2532) interleaved with one
concurrent `bufferMessage` append: the flush snapshots `buf0` into a chunk
synchronously, then suspends at `await saveChunkToQdrant`; while the network
call is in flight the host appends `arriving`, making the module buffer
`buf0 ++ [arriving]`; when the flush resumes, `messageBuffer = []`
overwrites that buffer.  On the paths that return before the `await`
(empty buffer, no participants) the append can only happen after the
synchronous run, leaving `arriving` buffered. -/
def processMessageBufferRace (formatDateISO : Int → Option String) (now : Int)
    (participants : List String) (_saveResult : Bool)
    (buf0 : List BufferedMsg) (arriving : BufferedMsg) : FlushOutcome :=
  if buf0.isEmpty then { finalBuffer := buf0 ++ [arriving], flushedChunk := none }
  else
    match createChunkFromBuffer formatDateISO now buf0 with
    | none => { finalBuffer := buf0 ++ [arriving], flushedChunk := none }
    | some chunk =>
      if participants.isEmpty then { finalBuffer := [arriving], flushedChunk := none }
      else { finalBuffer := [], flushedChunk := some chunk }

/-! ## Bulk Reindexer (src/index.js 2862-2944 and 2986-3136) -/

/-- A raw message of a loaded transcript file, as read by
`createChunksFromChat` (src/index.js 2897-2915). -/
structure ChatMsg where
  is_system : Bool
  is_user : Bool
  mes : String
  send_date : Int
deriving DecidableEq, Repr

/-- The filter-and-convert step of `createChunksFromChat` (src/index.js
2897-2916) for the message at position `i`: skip system messages, messages
whose trimmed text is empty or below the length threshold, and messages
excluded by the save-type toggles; otherwise build the replay message whose
id is `characterName + "_" + send_date + "_" + i`.  (The source computes the
position with `messages.indexOf(msg)`, which under JavaScript reference
equality is the element's own index.)  A falsy (zero) `send_date` falls back
to `Date.now()` (`now`). -/
def toReplayMsg (s : Settings) (characterName : String) (now : Int)
    (msg : ChatMsg) (i : Nat) : Option ReplayMsg :=
  if msg.is_system then none
  else
    let text := jsTrim msg.mes
    if text = "" || text.length < s.minMessageLength then none
    else if msg.is_user && !s.saveUserMessages then none
    else if !msg.is_user && !s.saveCharacterMessages then none
    else
      some { text := text
             characterName := characterName
             isUser := msg.is_user
             messageId := characterName ++ "_" ++ toString msg.send_date ++ "_" ++ toString i
             timestamp := if msg.send_date ≠ 0 then msg.send_date else now }

/-- Pair each element with its position, starting at `i`. -/
def withIndexFrom (i : Nat) : List α → List (α × Nat)
  | [] => []
  | a :: rest => (a, i) :: withIndexFrom (i + 1) rest

/-- The greedy packing state of `createChunksFromChat`: finished chunks, the
in-progress group and its accumulated size. -/
structure PackState where
  chunks : List Chunk
  currentChunk : List ReplayMsg
  currentSize : Nat
deriving DecidableEq, Repr

/-- One loop iteration of `createChunksFromChat` (src/index.js 2918-2935)
for a message that passed the filters: close the in-progress group first if
adding would exceed the max size, append the message, then close immediately
when the group has reached min size with at least 3 messages. -/
def packMessage (s : Settings) (formatDateISO : Int → Option String) (now : Int)
    (st : PackState) (m : ReplayMsg) : PackState :=
  let messageSize := m.text.length + m.characterName.length + 4
  let st1 :=
    if st.currentSize + messageSize > s.chunkMaxSize ∧ st.currentChunk ≠ [] then
      { chunks := st.chunks ++ [createChunkFromMessages formatDateISO now st.currentChunk]
        currentChunk := []
        currentSize := 0 }
    else st
  let st2 := { st1 with
    currentChunk := st1.currentChunk ++ [m]
    currentSize := st1.currentSize + messageSize }
  if st2.currentSize ≥ s.chunkMinSize ∧ st2.currentChunk.length ≥ 3 then
    { chunks := st2.chunks ++ [createChunkFromMessages formatDateISO now st2.currentChunk]
      currentChunk := []
      currentSize := 0 }
  else st2

/-- `createChunksFromChat` (src/index.js 2892-2944): filter the transcript,
greedily pack the survivors, and close any trailing group. -/
def createChunksFromChat (s : Settings) (formatDateISO : Int → Option String)
    (now : Int) (messages : List ChatMsg) (characterName : String) : List Chunk :=
  let replayMsgs := (withIndexFrom 0 messages).filterMap
    fun p => toReplayMsg s characterName now p.1 p.2
  let final := replayMsgs.foldl (packMessage s formatDateISO now) ⟨[], [], 0⟩
  final.chunks ++
    (if final.currentChunk ≠ [] then
      [createChunkFromMessages formatDateISO now final.currentChunk]
    else [])

/-- `chunkExists` (src/index.js 2862-2890) against a storage that faithfully
reports membership: the scroll probe's `should` filter matches when any of
the chunk's member ids occurs in the `messageIds` payload of some stored
point.  Storage is modelled as the list of stored member-id lists. -/
def chunkExists (storage : List (List String)) (messageIds : List String) : Bool :=
  storage.any fun stored => messageIds.any fun id => id ∈ stored

/-- The running tallies and storage of one `indexCharacterChats` run. -/
structure ReindexResult where
  saved : Nat
  skipped : Nat
  storage : List (List String)
deriving DecidableEq, Repr

/-- One iteration of the per-chunk loop of `indexCharacterChats`
(src/index.js 3089-3109), with the write succeeding (storage faithfully
records what is written) and no cancellation: an existing chunk bumps
`skipped`; otherwise the chunk is saved, bumping `saved` and adding its
member ids to storage. -/
def reindexStep (r : ReindexResult) (c : Chunk) : ReindexResult :=
  if chunkExists r.storage c.messageIds then { r with skipped := r.skipped + 1 }
  else { saved := r.saved + 1
         skipped := r.skipped
         storage := r.storage ++ [c.messageIds] }

/-- The per-chunk loop of `indexCharacterChats` (src/index.js 3089-3109). -/
def reindexChunks (chunks : List Chunk) (r0 : ReindexResult) : ReindexResult :=
  chunks.foldl reindexStep r0

/-- `indexCharacterChats` (src/index.js 2986-3136) over an already loaded
transcript set: each file is chunked with `createChunksFromChat` and its
chunks run through the existence-check-then-save loop.  Cancellation is off
and every load and write succeeds. -/
def indexCharacterChats (s : Settings) (formatDateISO : Int → Option String)
    (now : Int) (characterName : String) (chatFiles : List (List ChatMsg))
    (storage0 : List (List String)) : ReindexResult :=
  chatFiles.foldl
    (fun r f => reindexChunks (createChunksFromChat s formatDateISO now f characterName) r)
    { saved := 0, skipped := 0, storage := storage0 }

/-! ## Retrieval Engine (src/index.js 2238-2338, `searchMemories`) -/

/-- A live conversation entry as the interceptor and retrieval see it:
the host fields read by the embedded functions plus the synthetic-memory
marker `__qdrantMemory`. -/
structure ChatEntry where
  is_user : Bool
  is_system : Bool
  name : String
  mes : String
  send_date : SendDate
  memoryFlag : Bool
deriving DecidableEq, Repr

/-- `isQdrantMemoryMessage` (src/index.js 1799-1801). -/
def isQdrantMemoryMessage (m : ChatEntry) : Bool :=
  m.memoryFlag

/-- `removeExistingMemoryEntries` (src/index.js 1840-1848): splice every
marker-tagged entry out of the live sequence. -/
def removeExistingMemoryEntries (chat : List ChatEntry) : List ChatEntry :=
  chat.filter fun m => !isQdrantMemoryMessage m

/-- `getConversationMessages` (src/index.js 1827-1838): keep the entries that
are not synthetic memory turns and whose `send_date` normalizes to a number. -/
def getConversationMessages (jsNumber jsDateParse : String → Option Int)
    (chat : List ChatEntry) : List ChatEntry :=
  chat.filter fun msg =>
    !isQdrantMemoryMessage msg &&
      (normalizeSendDate jsNumber jsDateParse msg.send_date).isSome

/-- The recency-cutoff computation of `searchMemories` (src/index.js
2256-2278): zero unless the retention setting is positive and the filtered
conversation has more turns than it, in which case the cutoff is the
normalized timestamp of the turn `retainRecentMessages` turns from the end
(left at zero if that entry or its timestamp is unavailable). -/
def computeTimestampThreshold (jsNumber jsDateParse : String → Option Int)
    (retainRecentMessages : Nat) (conversationMessages : List ChatEntry) : Int :=
  if retainRecentMessages > 0 ∧ conversationMessages.length > retainRecentMessages then
    let retainIndex := conversationMessages.length - retainRecentMessages
    match conversationMessages[retainIndex]? with
    | some retainMessage =>
      match normalizeSendDate jsNumber jsDateParse retainMessage.send_date with
      | some t => t
      | none => 0
    | none => 0
  else 0

/-- A condition of the search request's `filter.must` list
(src/index.js 2287-2305). -/
inductive FilterCondition where
  | timestampLt (t : Int)
  | characterMatch (name : String)
deriving DecidableEq, Repr

/-- The similarity search request body (src/index.js 2280-2312). -/
structure SearchRequest where
  vector : List Int
  limit : Nat
  scoreThreshold : Rat
  withPayload : Bool
  filterMust : List FilterCondition
deriving DecidableEq, Repr

/-- The query-building part of `searchMemories` (src/index.js 2256-2320),
given a successfully generated query `embedding`: strip injected memory
turns, filter to timestamped conversation turns, compute the cutoff, and
attach the `timestamp < cutoff` range condition only when the cutoff is
positive and the exact-match `character` condition only when per-character
collections are disabled. -/
def buildSearchRequest (jsNumber jsDateParse : String → Option Int)
    (s : Settings) (characterName : String) (embedding : List Int)
    (chat : List ChatEntry) : SearchRequest :=
  let chatStripped := removeExistingMemoryEntries chat
  let conversationMessages := getConversationMessages jsNumber jsDateParse chatStripped
  let timestampThreshold :=
    computeTimestampThreshold jsNumber jsDateParse s.retainRecentMessages conversationMessages
  let filterConditions : List FilterCondition :=
    (if timestampThreshold > 0 then [.timestampLt timestampThreshold] else []) ++
      (if !s.usePerCharacterCollections then [.characterMatch characterName] else [])
  { vector := embedding
    limit := s.memoryLimit
    scoreThreshold := s.scoreThreshold
    withPayload := true
    filterMust := filterConditions }

/-! ## Injection Interceptor (src/index.js 3142-3227, `qdrantMemoryInterceptor`) -/

/-- The synthetic memory entry created by the interceptor
(src/index.js 3198-3205): a marker-tagged system turn holding the rendered
memory text. -/
def memoryEntryOf (memoryText : String) (now : Int) : ChatEntry :=
  { is_user := false
    is_system := true
    name := "System"
    mes := memoryText
    send_date := .num now
    memoryFlag := true }

/-- `qdrantMemoryInterceptor` (src/index.js 3142-3227) as a function of the
live sequence.  `memories` is the awaited `searchMemories` result (its
elements are opaque here) and `memoryText` the `formatMemories` rendering of
it; `now` models `Date.now()`.  Disabled extension or missing character are
skips; otherwise injected memory turns are stripped, the most recent user
turn with non-empty text is located (skip if none), and when retrieval is
non-empty a single marker-tagged system turn is spliced in at
`max(0, length - memoryPosition)` over the stripped sequence. -/
def qdrantMemoryInterceptor {α : Type} (s : Settings) (characterName : String)
    (memories : List α) (memoryText : String) (now : Int)
    (chat : List ChatEntry) : List ChatEntry :=
  if !s.enabled then chat
  else if characterName = "" then chat
  else
    let chat1 := removeExistingMemoryEntries chat
    match chat1.reverse.find? (·.is_user) with
    | none => chat1
    | some lastUserMsg =>
      if lastUserMsg.mes = "" then chat1
      else if memories.length > 0 then
        let insertIndex := chat1.length - s.memoryPosition
        chat1.take insertIndex ++ [memoryEntryOf memoryText now] ++ chat1.drop insertIndex
      else chat1

/-! ## Concrete fixtures used by the witness theorems -/

/-- A concrete stand-in for JavaScript `Number(string)`: recognises one
numeric string. -/
def jsNumberFix : String → Option Int :=
  fun s => if s = "1700000000000" then some 1700000000000 else none

/-- A concrete stand-in for `Date.parse`: recognises one ISO date string. -/
def jsDateParseFix : String → Option Int :=
  fun s => if s = "2023-11-14T22:13:20Z" then some 1700000000000 else none

/-- The source's `defaultSettings` object (src/index.js 1737-1761),
restricted to the modelled fields. -/
def defaultSettings : Settings :=
  { enabled := true
    provider := "openai"
    apiKey := ""
    openaiApiKey := ""
    collectionName := "mem"
    memoryLimit := 5
    scoreThreshold := 3/10
    memoryPosition := 2
    usePerCharacterCollections := true
    autoSaveMemories := true
    saveUserMessages := true
    saveCharacterMessages := true
    minMessageLength := 5
    retainRecentMessages := 5
    chunkMinSize := 1200
    chunkMaxSize := 1500
    chunkTimeout := 30000 }

/-- A response body whose `data[0].embedding` field is present and truthy
but not a numeric vector. -/
def badEmbeddingBody : Json :=
  .obj [("data", .arr [.obj [("embedding", .str "oops")]])]

/-- Spec-side: plain concatenation of a list of strings (used to state the
expected transcript rendering). -/
def joinAll : List String → String
  | [] => ""
  | x :: xs => x ++ joinAll xs

/-- A small chunk used by the C10 witness. -/
def chunkFix : Chunk :=
  { text := "[2026-01-01]\nYou: hi"
    speakers := ["You"]
    messageIds := ["alice_1_0"]
    messageCount := 1
    timestamp := 5 }

/-- The point stored for "Alice" in the C10 witness. -/
def pointFixA : StoredPoint :=
  { collection := "mem_alice"
    id := "u-1"
    vector := [1, 2]
    payload := chunkPayload chunkFix "Alice" }

/-- The point stored for "Bob" in the C10 witness. -/
def pointFixB : StoredPoint :=
  { collection := "mem_bob"
    id := "u-1"
    vector := [1, 2]
    payload := chunkPayload chunkFix "Bob" }

/-- A live conversation of 10 normal turns with timestamps 0..9. -/
def chatFix : List ChatEntry :=
  (List.range 10).map fun i =>
    { is_user := true
      is_system := false
      name := "U"
      mes := "hello friend"
      send_date := .num i
      memoryFlag := false }

/-! ## Theorems -/

/-- Claim C7: normalization returns the epoch value of Date objects and
numbers as is; a numeric-looking string returns its exact numeric value
before any calendar parsing is attempted (for every possible `Date.parse`
behaviour); a non-numeric but parseable calendar string returns its epoch
equivalent; and every non-parseable input returns the `null` sentinel. -/
theorem claim_C7 (jsNumber jsDateParse : String → Option Int) :
    (∀ ms : Int, normalizeSendDate jsNumber jsDateParse (.dateObj ms) = some ms) ∧
    (∀ n : Int, normalizeSendDate jsNumber jsDateParse (.num n) = some n) ∧
    (∀ s v, jsNumber s = some v →
      normalizeSendDate jsNumber jsDateParse (.str s) = some v) ∧
    (∀ s e, jsNumber s = none → jsDateParse s = some e →
      normalizeSendDate jsNumber jsDateParse (.str s) = some e) ∧
    (∀ s, jsNumber s = none → jsDateParse s = none →
      normalizeSendDate jsNumber jsDateParse (.str s) = none) ∧
    normalizeSendDate jsNumber jsDateParse .other = none := by
  refine ⟨fun _ => rfl, fun _ => rfl, ?_, ?_, ?_, rfl⟩
  · intro s v h
    simp [normalizeSendDate, h]
  · intro s e h1 h2
    simp [normalizeSendDate, h1, h2]
  · intro s h1 h2
    simp [normalizeSendDate, h1, h2]

/-- Witness for C7 at concrete inputs: a numeric string is taken as a raw
epoch even though `Date.parse` would reject it, an ISO date string falls
through to calendar parsing, and an unrecognised string yields the sentinel. -/
theorem claim_C7_witness :
    normalizeSendDate jsNumberFix jsDateParseFix (.str "1700000000000") =
      some 1700000000000 ∧
    normalizeSendDate jsNumberFix jsDateParseFix (.str "2023-11-14T22:13:20Z") =
      some 1700000000000 ∧
    normalizeSendDate jsNumberFix jsDateParseFix (.str "not a date") = none :=
  ⟨(claim_C7 jsNumberFix jsDateParseFix).2.2.1 "1700000000000" 1700000000000 (by decide),
   (claim_C7 jsNumberFix jsDateParseFix).2.2.2.1 "2023-11-14T22:13:20Z" 1700000000000
     (by decide) (by decide),
   (claim_C7 jsNumberFix jsDateParseFix).2.2.2.2.1 "not a date" (by decide) (by decide)⟩

/-- Claim C3: after every `processMessageBuffer` run the message buffer is
empty — on the empty-buffer early return it was already empty, on the
no-participants path it is cleared before returning, and on the save path it
is cleared after the awaited `saveChunkToQdrant` regardless of that call's
result (embedding failure or all participant writes failing included). -/
theorem claim_C3 (formatDateISO : Int → Option String) (now : Int)
    (participants : List String) (saveResult : Bool) (buf : List BufferedMsg) :
    (processMessageBuffer formatDateISO now participants saveResult buf).finalBuffer = [] := by
  cases buf with
  | nil => rfl
  | cons b bs =>
    simp only [processMessageBuffer, createChunkFromBuffer, List.isEmpty_cons,
      Bool.false_eq_true, if_false]
    by_cases hp : participants.isEmpty <;> simp [hp]

/-- Claim C1 (amended): the flush snapshots the buffer before awaiting, so
the flushed chunk is exactly the chunk built from the pre-await buffer and
is unaffected by a concurrently appended turn; but the buffer is cleared
only after the network call settles, so the concurrently appended turn is
wiped from the buffer without having been captured in any chunk — it is
lost, not duplicated. -/
theorem claim_C1_amended (formatDateISO : Int → Option String) (now : Int)
    (participants : List String) (saveResult : Bool)
    (buf0 : List BufferedMsg) (arriving : BufferedMsg)
    (hbuf : buf0 ≠ []) (hpart : participants ≠ []) :
    processMessageBufferRace formatDateISO now participants saveResult buf0 arriving =
      { finalBuffer := []
        flushedChunk := createChunkFromBuffer formatDateISO now buf0 } ∧
    (∀ c, createChunkFromBuffer formatDateISO now buf0 = some c →
      c.messageIds = buf0.map (·.messageId)) := by
  obtain ⟨b, bs, rfl⟩ : ∃ b bs, buf0 = b :: bs := by
    cases buf0 with
    | nil => exact absurd rfl hbuf
    | cons b bs => exact ⟨b, bs, rfl⟩
  obtain ⟨p, ps, rfl⟩ : ∃ p ps, participants = p :: ps := by
    cases participants with
    | nil => exact absurd rfl hpart
    | cons p ps => exact ⟨p, ps, rfl⟩
  constructor
  · simp [processMessageBufferRace, createChunkFromBuffer]
  · intro c hc
    simp only [createChunkFromBuffer, List.isEmpty_cons, Bool.false_eq_true, if_false,
      Option.some.injEq] at hc
    subst hc
    rfl

/-- Counterexample to C1 as stated: flushing the one-message buffer while a
second turn (`id2`) arrives during the awaited network call leaves an empty
buffer and a flushed chunk containing only `id1` — the arriving turn is in
neither, i.e. it is lost, contradicting "neither lost nor duplicated". -/
theorem claim_C1_counterexample :
    (processMessageBufferRace (fun _ => some "2026-10-11") 100 ["Alice"] false
      [{ text := "hello there", characterName := "Alice", isUser := false, messageId := "id1" }]
      { text := "hi again", characterName := "Alice", isUser := true, messageId := "id2" }) =
      { finalBuffer := []
        flushedChunk := some
          { text := "[2026-10-11]\nAlice: hello there"
            speakers := ["Alice"]
            messageIds := ["id1"]
            messageCount := 1
            timestamp := 100 } } := by
  decide

/-- Witness for the amended C1 at the concrete race of the counterexample. -/
theorem claim_C1_witness :
    processMessageBufferRace (fun _ => some "2026-10-11") 100 ["Alice"] false
      [{ text := "hello there", characterName := "Alice", isUser := false, messageId := "id1" }]
      { text := "hi again", characterName := "Alice", isUser := true, messageId := "id2" } =
      { finalBuffer := []
        flushedChunk := createChunkFromBuffer (fun _ => some "2026-10-11") 100
          [{ text := "hello there", characterName := "Alice", isUser := false,
             messageId := "id1" }] } ∧
    (∀ c, createChunkFromBuffer (fun _ => some "2026-10-11") 100
        [{ text := "hello there", characterName := "Alice", isUser := false,
           messageId := "id1" }] = some c →
      c.messageIds = ["id1"]) :=
  claim_C1_amended (fun _ => some "2026-10-11") 100 ["Alice"] false
    [{ text := "hello there", characterName := "Alice", isUser := false, messageId := "id1" }]
    { text := "hi again", characterName := "Alice", isUser := true, messageId := "id2" }
    (by decide) (by decide)

/-- The buffer-size fold equals the sum over buffered turns of
`text.length + characterName.length + 4`. -/
theorem bufferSize_eq_sum (buf : List BufferedMsg) :
    bufferSize buf = (buf.map fun m => m.text.length + m.characterName.length + 4).sum := by
  suffices h : ∀ (l : List BufferedMsg) (n : Nat),
      l.foldl (fun acc m => acc + m.text.length + m.characterName.length + 4) n =
        n + (l.map fun m => m.text.length + m.characterName.length + 4).sum by
    simpa [bufferSize] using h buf 0
  intro l
  induction l with
  | nil => intro n; simp
  | cons x xs ih =>
    intro n
    simp only [List.foldl_cons, List.map_cons, List.sum_cons, ih]
    omega

/-- Case characterization of `bufferMessage`: a rejected no-op exactly under
`isNoOpTurn`, otherwise append-then-decide on the recomputed size. -/
theorem bufferMessage_cases (s : Settings) (st : BufferState)
    (text characterName : String) (isUser : Bool) (messageId : String) :
    bufferMessage s st text characterName isUser messageId =
      if isNoOpTurn s text isUser then (st, .rejected)
      else
        if bufferSize (st.messageBuffer ++ [pushedTurn text characterName isUser messageId]) ≥
            s.chunkMaxSize then
          ({ messageBuffer := st.messageBuffer ++ [pushedTurn text characterName isUser messageId],
             chunkTimer := none }, .flushNow)
        else if bufferSize (st.messageBuffer ++ [pushedTurn text characterName isUser messageId]) ≥
            s.chunkMinSize then
          ({ messageBuffer := st.messageBuffer ++ [pushedTurn text characterName isUser messageId],
             chunkTimer := some 5000 }, .armTimer 5000)
        else
          ({ messageBuffer := st.messageBuffer ++ [pushedTurn text characterName isUser messageId],
             chunkTimer := some s.chunkTimeout }, .armTimer s.chunkTimeout) := by
  unfold bufferMessage isNoOpTurn pushedTurn
  by_cases h1 : s.autoSaveMemories <;>
    by_cases h2 : providerRequiresApiKey s.provider <;>
      by_cases h3 : getEffectiveEmbeddingApiKey s = "" <;>
        by_cases h4 : text.length < s.minMessageLength <;>
          by_cases h5 : isUser <;>
            by_cases h6 : s.saveUserMessages <;>
              by_cases h7 : s.saveCharacterMessages <;>
                simp [h1, h2, h3, h4, h5, h6, h7]

/-- Claim C4: `bufferMessage` is a no-op exactly when auto-save is off, the
provider requires a missing API key, the text is below the minimum length,
or the save-type toggles exclude the turn; otherwise it appends the turn,
recomputes the size as the sum of `text.length + speakerName.length + 4`,
cancels any pending timer, and flushes immediately at size ≥ max, arms the
5-second timer at size ≥ min, and arms the configured long timeout below
min. -/
theorem claim_C4 (s : Settings) (st : BufferState)
    (text characterName : String) (isUser : Bool) (messageId : String) :
    (bufferMessage s st text characterName isUser messageId = (st, .rejected) ↔
      isNoOpTurn s text isUser) ∧
    (¬ isNoOpTurn s text isUser →
      (bufferMessage s st text characterName isUser messageId).1.messageBuffer =
        st.messageBuffer ++ [pushedTurn text characterName isUser messageId] ∧
      bufferSize ((bufferMessage s st text characterName isUser messageId).1.messageBuffer) =
        ((st.messageBuffer ++ [pushedTurn text characterName isUser messageId]).map fun m =>
          m.text.length + m.characterName.length + 4).sum ∧
      (∀ size, size = bufferSize (st.messageBuffer ++ [pushedTurn text characterName isUser messageId]) →
        (s.chunkMaxSize ≤ size →
          bufferMessage s st text characterName isUser messageId =
            ({ messageBuffer := st.messageBuffer ++ [pushedTurn text characterName isUser messageId],
               chunkTimer := none }, .flushNow)) ∧
        (size < s.chunkMaxSize → s.chunkMinSize ≤ size →
          bufferMessage s st text characterName isUser messageId =
            ({ messageBuffer := st.messageBuffer ++ [pushedTurn text characterName isUser messageId],
               chunkTimer := some 5000 }, .armTimer 5000)) ∧
        (size < s.chunkMaxSize → size < s.chunkMinSize →
          bufferMessage s st text characterName isUser messageId =
            ({ messageBuffer := st.messageBuffer ++ [pushedTurn text characterName isUser messageId],
               chunkTimer := some s.chunkTimeout }, .armTimer s.chunkTimeout)))) := by
  rw [bufferMessage_cases]
  by_cases hno : isNoOpTurn s text isUser
  · rw [if_pos hno]
    exact ⟨by simp [hno], fun h => absurd hno h⟩
  · rw [if_neg hno]
    refine ⟨⟨fun h => ?_, fun h => absurd h hno⟩, fun _ => ⟨?_, ?_, ?_⟩⟩
    · exfalso
      revert h
      split_ifs <;> intro h <;> exact BufferAction.noConfusion (congrArg Prod.snd h)
    · split_ifs <;> rfl
    · split_ifs <;> simp [bufferSize_eq_sum]
    · intro size hsize
      subst hsize
      refine ⟨fun hmax => ?_, fun hmax hmin => ?_, fun hmax hmin => ?_⟩
      · rw [if_pos hmax]
      · rw [if_neg (by omega), if_pos hmin]
      · rw [if_neg (by omega), if_neg (by omega)]

/-- Witness for C4: with thresholds min=10/max=20 and an accepted 16-char
turn from "Bob" (size 16+3+4=23 ≥ max), `bufferMessage` flushes immediately
with the timer cancelled. -/
theorem claim_C4_witness :
    bufferMessage
      { defaultSettings with
        openaiApiKey := "k"
        minMessageLength := 1
        chunkMinSize := 10
        chunkMaxSize := 20 }
      { messageBuffer := [], chunkTimer := some 30000 }
      "0123456789abcdef" "Bob" false "w1" =
      ({ messageBuffer := [pushedTurn "0123456789abcdef" "Bob" false "w1"]
         chunkTimer := none }, .flushNow) := by
  have h := (claim_C4
    { defaultSettings with
      openaiApiKey := "k"
      minMessageLength := 1
      chunkMinSize := 10
      chunkMaxSize := 20 }
    { messageBuffer := [], chunkTimer := some 30000 }
    "0123456789abcdef" "Bob" false "w1").2 (by decide)
  exact (h.2.2 _ rfl).1 (by decide)

/-- For the structured (non-huggingface) providers, the adapter on a parsed
body reduces to the truthiness test of the `data[0].embedding` chain (for a
null body the chain is already undefined, matching the caught TypeError). -/
theorem generateEmbedding_ok_structured (provider : String) (json : Json)
    (hp : provider ≠ "huggingface") :
    generateEmbedding provider (.okJson json) =
      match ((json.getField "data").bind (fun d => d.getIndex 0)).bind
          (fun e => e.getField "embedding") with
      | some v => if v.truthy then some v else none
      | none => none := by
  rcases json with _ | b | n | sv | items | fields
  all_goals simp only [generateEmbedding, hp, if_false]
  all_goals rfl

/-- For the huggingface provider, the adapter on a parsed non-null body
reduces to `Array.isArray(json[0]) ? json[0] : json`. -/
theorem generateEmbedding_hf (json : Json) (hnull : json ≠ .null) :
    generateEmbedding "huggingface" (.okJson json) =
      match json.getIndex 0 with
      | some (.arr first) => some (.arr first)
      | _ => some json := by
  rcases json with _ | b | n | sv | items | fields
  · exact absurd rfl hnull
  all_goals rfl

/-- Claim C2 (amended): the adapter is a total function of the fetch
outcome — no exception escapes the catch — and network errors, non-2xx
statuses, bodies that fail to parse as JSON, and a parsed null body (whose
property access throws inside the adapter) all yield the failure result;
for the structured providers a missing or falsy `data[0].embedding` also
yields the failure result, and any produced value is the truthy extracted
field returned verbatim (not validated to be a numeric vector); for the
"huggingface" provider any parsed non-null body yields a result (the body,
or its nested first array element, verbatim), never the failure result. -/
theorem claim_C2_amended (provider : String) :
    generateEmbedding provider .netError = none ∧
    generateEmbedding provider .httpError = none ∧
    generateEmbedding provider .okBadJson = none ∧
    generateEmbedding provider (.okJson .null) = none ∧
    (∀ json, provider ≠ "huggingface" →
      ((json.getField "data").bind (fun d => d.getIndex 0)).bind
        (fun e => e.getField "embedding") = none →
      generateEmbedding provider (.okJson json) = none) ∧
    (∀ json v, provider ≠ "huggingface" →
      generateEmbedding provider (.okJson json) = some v → v.truthy = true) ∧
    (∀ json, json ≠ .null →
      generateEmbedding "huggingface" (.okJson json) ≠ none) := by
  refine ⟨rfl, rfl, rfl, ?_, ?_, ?_, ?_⟩
  · unfold generateEmbedding
    split_ifs <;> rfl
  · intro json hp hchain
    rw [generateEmbedding_ok_structured provider json hp, hchain]
  · intro json v hp hv
    rw [generateEmbedding_ok_structured provider json hp] at hv
    rcases hchain : ((json.getField "data").bind (fun d => d.getIndex 0)).bind
        (fun e => e.getField "embedding") with _ | w
    · rw [hchain] at hv
      exact absurd hv (by simp)
    · rw [hchain] at hv
      by_cases ht : w.truthy
      · simp only [ht, if_true, Option.some.injEq] at hv
        subst hv
        exact ht
      · simp [ht] at hv
  · intro json hnull
    rw [generateEmbedding_hf json hnull]
    rcases json.getIndex 0 with _ | j
    · simp
    · cases j <;> simp

/-- Counterexample to C2 as stated: for the default provider a 2xx response
whose `data[0].embedding` is the string "oops" — a shape that contains no
numeric vector — makes the adapter return that string verbatim: neither a
numeric vector nor the failure result. -/
theorem claim_C2_counterexample :
    generateEmbedding "openai" (.okJson badEmbeddingBody) = some (.str "oops") ∧
    Json.isNumericVector (.str "oops") = false :=
  ⟨rfl, rfl⟩

/-- Witness for the amended C2 at concrete inputs: a body without the
expected field fails for openai, a parsed null body fails for huggingface
(the caught TypeError), and a non-null huggingface error object does not. -/
theorem claim_C2_witness :
    generateEmbedding "openai" (.okJson (.obj [])) = none ∧
    generateEmbedding "huggingface" (.okJson .null) = none ∧
    generateEmbedding "huggingface" (.okJson (.obj [("error", .str "busy")])) ≠ none :=
  ⟨(claim_C2_amended "openai").2.2.2.2.1 (.obj []) (by decide) rfl,
   (claim_C2_amended "huggingface").2.2.2.1,
   (claim_C2_amended "openai").2.2.2.2.2.2 (.obj [("error", .str "busy")])
     (fun h => Json.noConfusion h)⟩

/-- Every entry kept by `getConversationMessages` has a normalizable
timestamp. -/
theorem mem_getConversationMessages (jsNumber jsDateParse : String → Option Int)
    (chat : List ChatEntry) (m : ChatEntry)
    (hm : m ∈ getConversationMessages jsNumber jsDateParse chat) :
    ∃ t, normalizeSendDate jsNumber jsDateParse m.send_date = some t := by
  simp only [getConversationMessages] at hm
  have h := (List.mem_filter.mp hm).2
  rw [Bool.and_eq_true] at h
  exact Option.isSome_iff_exists.mp h.2

/-- Claim C6: with a positive retention setting, once the filtered live
conversation exceeds it the recency cutoff is the normalized timestamp of
the turn exactly `retainRecentMessages` turns from the end; the search
request carries the strictly-less timestamp condition exactly when the
cutoff is positive (and for no other value), and the exact-match character
condition exactly when per-character collections are disabled (and for no
other name). -/
theorem claim_C6 (jsNumber jsDateParse : String → Option Int) (s : Settings)
    (characterName : String) (embedding : List Int) (chat : List ChatEntry)
    (msgs : List ChatEntry) (cutoff : Int) (req : SearchRequest)
    (hmsgs : msgs = getConversationMessages jsNumber jsDateParse
      (removeExistingMemoryEntries chat))
    (hcut : cutoff = computeTimestampThreshold jsNumber jsDateParse
      s.retainRecentMessages msgs)
    (hreq : req = buildSearchRequest jsNumber jsDateParse s characterName embedding chat)
    (hret : 0 < s.retainRecentMessages) :
    (s.retainRecentMessages < msgs.length →
      ∃ m t, msgs[msgs.length - s.retainRecentMessages]? = some m ∧
        normalizeSendDate jsNumber jsDateParse m.send_date = some t ∧ cutoff = t) ∧
    (FilterCondition.timestampLt cutoff ∈ req.filterMust ↔ 0 < cutoff) ∧
    (∀ t, FilterCondition.timestampLt t ∈ req.filterMust → t = cutoff) ∧
    (FilterCondition.characterMatch characterName ∈ req.filterMust ↔
      s.usePerCharacterCollections = false) ∧
    (∀ n, FilterCondition.characterMatch n ∈ req.filterMust → n = characterName) := by
  have hreq' : req.filterMust =
      (if 0 < cutoff then [FilterCondition.timestampLt cutoff] else []) ++
        (if !s.usePerCharacterCollections then
          [FilterCondition.characterMatch characterName] else []) := by
    rw [hreq, hcut, hmsgs]
    simp only [buildSearchRequest, gt_iff_lt]
  refine ⟨?_, ?_, ?_, ?_, ?_⟩
  · intro hlen
    have hidx : msgs.length - s.retainRecentMessages < msgs.length := by omega
    obtain ⟨m, hm⟩ : ∃ m, msgs[msgs.length - s.retainRecentMessages]? = some m :=
      ⟨_, List.getElem?_eq_getElem hidx⟩
    obtain ⟨t, ht⟩ := mem_getConversationMessages jsNumber jsDateParse
      (removeExistingMemoryEntries chat) m (hmsgs ▸ List.getElem?_mem hm)
    refine ⟨m, t, hm, ht, ?_⟩
    rw [hcut]
    simp only [computeTimestampThreshold, gt_iff_lt]
    rw [if_pos ⟨hret, hlen⟩, hm]
    simp [ht]
  · rw [hreq']
    by_cases h0 : 0 < cutoff <;>
      cases hu : s.usePerCharacterCollections <;>
        simp [h0, hu]
  · intro t ht
    rw [hreq'] at ht
    by_cases h0 : 0 < cutoff <;>
      cases hu : s.usePerCharacterCollections <;>
        simp [h0, hu] at ht <;> exact ht
  · rw [hreq']
    by_cases h0 : 0 < cutoff <;>
      cases hu : s.usePerCharacterCollections <;>
        simp [h0, hu]
  · intro n hn
    rw [hreq'] at hn
    by_cases h0 : 0 < cutoff <;>
      cases hu : s.usePerCharacterCollections <;>
        simp [h0, hu] at hn <;> exact hn

/-- Witness for C6: a 10-turn conversation (timestamps 0..9) with retention
5 and a shared collection — the cutoff is the timestamp of turn index 5,
and the built request carries both conditions. -/
theorem claim_C6_witness :
    (({ defaultSettings with usePerCharacterCollections := false } : Settings).retainRecentMessages <
        chatFix.length →
      ∃ m t, chatFix[chatFix.length -
          ({ defaultSettings with usePerCharacterCollections := false } : Settings).retainRecentMessages]? =
          some m ∧
        normalizeSendDate jsNumberFix jsDateParseFix m.send_date = some t ∧ (5 : Int) = t) ∧
    (FilterCondition.timestampLt 5 ∈
        (buildSearchRequest jsNumberFix jsDateParseFix
          { defaultSettings with usePerCharacterCollections := false }
          "Alice" [7] chatFix).filterMust ↔ (0 : Int) < 5) ∧
    (∀ t, FilterCondition.timestampLt t ∈
        (buildSearchRequest jsNumberFix jsDateParseFix
          { defaultSettings with usePerCharacterCollections := false }
          "Alice" [7] chatFix).filterMust → t = 5) ∧
    (FilterCondition.characterMatch "Alice" ∈
        (buildSearchRequest jsNumberFix jsDateParseFix
          { defaultSettings with usePerCharacterCollections := false }
          "Alice" [7] chatFix).filterMust ↔
      ({ defaultSettings with usePerCharacterCollections := false } : Settings).usePerCharacterCollections =
        false) ∧
    (∀ n, FilterCondition.characterMatch n ∈
        (buildSearchRequest jsNumberFix jsDateParseFix
          { defaultSettings with usePerCharacterCollections := false }
          "Alice" [7] chatFix).filterMust → n = "Alice") :=
  claim_C6 jsNumberFix jsDateParseFix
    { defaultSettings with usePerCharacterCollections := false }
    "Alice" [7] chatFix chatFix 5
    (buildSearchRequest jsNumberFix jsDateParseFix
      { defaultSettings with usePerCharacterCollections := false }
      "Alice" [7] chatFix)
    (by decide) (by decide) rfl (by decide)

/-- Every entry surviving `removeExistingMemoryEntries` is unflagged. -/
theorem mem_removeExistingMemoryEntries (chat : List ChatEntry) (e : ChatEntry)
    (he : e ∈ removeExistingMemoryEntries chat) : e.memoryFlag = false := by
  have h := (List.mem_filter.mp he).2
  simpa [isQdrantMemoryMessage] using h

/-- Claim C9: one interceptor pass first strips every marker-tagged memory
turn; when a character is active, a most-recent user turn with text exists
and retrieval returns a non-empty list, the pass splices exactly one new
marker-tagged turn into the stripped sequence at index
`length - memoryPosition` (clamped at 0 by truncated subtraction), and no
other position holds a marker-tagged turn. -/
theorem claim_C9 {α : Type} (s : Settings) (characterName : String)
    (memories : List α) (memoryText : String) (now : Int) (chat : List ChatEntry)
    (u : ChatEntry)
    (hen : s.enabled = true) (hname : characterName ≠ "")
    (hfind : (removeExistingMemoryEntries chat).reverse.find? (·.is_user) = some u)
    (hmes : u.mes ≠ "") (hmem : memories ≠ []) :
    qdrantMemoryInterceptor s characterName memories memoryText now chat =
      (removeExistingMemoryEntries chat).take
          ((removeExistingMemoryEntries chat).length - s.memoryPosition) ++
        [memoryEntryOf memoryText now] ++
        (removeExistingMemoryEntries chat).drop
          ((removeExistingMemoryEntries chat).length - s.memoryPosition) ∧
    (qdrantMemoryInterceptor s characterName memories memoryText now chat).countP
      (·.memoryFlag) = 1 ∧
    (qdrantMemoryInterceptor s characterName memories memoryText now chat)[
        (removeExistingMemoryEntries chat).length - s.memoryPosition]? =
      some (memoryEntryOf memoryText now) ∧
    (∀ i e,
      (qdrantMemoryInterceptor s characterName memories memoryText now chat)[i]? = some e →
      e.memoryFlag = true →
      i = (removeExistingMemoryEntries chat).length - s.memoryPosition) := by
  have hlen0 : 0 < memories.length := List.length_pos.mpr hmem
  have hres : qdrantMemoryInterceptor s characterName memories memoryText now chat =
      (removeExistingMemoryEntries chat).take
          ((removeExistingMemoryEntries chat).length - s.memoryPosition) ++
        [memoryEntryOf memoryText now] ++
        (removeExistingMemoryEntries chat).drop
          ((removeExistingMemoryEntries chat).length - s.memoryPosition) := by
    unfold qdrantMemoryInterceptor
    simp [hen, hname, hfind, hmes, hlen0, gt_iff_lt]
  set chat1 := removeExistingMemoryEntries chat with hchat1
  set k := chat1.length - s.memoryPosition with hk
  have hkle : k ≤ chat1.length := Nat.sub_le _ _
  have htklen : (chat1.take k).length = k := by
    rw [List.length_take]
    omega
  have hres' : qdrantMemoryInterceptor s characterName memories memoryText now chat =
      chat1.take k ++ (memoryEntryOf memoryText now :: chat1.drop k) := by
    rw [hres, List.append_assoc, List.singleton_append]
  refine ⟨hres, ?_, ?_, ?_⟩
  · rw [hres', List.countP_append]
    have h1 : (chat1.take k).countP (·.memoryFlag) = 0 :=
      List.countP_eq_zero.mpr fun e he => by
        simp [mem_removeExistingMemoryEntries chat e (List.take_subset k chat1 he)]
    have h2 : (chat1.drop k).countP (·.memoryFlag) = 0 :=
      List.countP_eq_zero.mpr fun e he => by
        simp [mem_removeExistingMemoryEntries chat e (List.drop_subset k chat1 he)]
    rw [h1]
    simp only [List.countP_cons, h2]
    simp [memoryEntryOf]
  · rw [hres', List.getElem?_append_right (by omega), htklen]
    simp
  · intro i e hi hflag
    by_contra hne
    rcases Nat.lt_or_ge i k with hik | hik
    · rw [hres', List.getElem?_append_left (by omega)] at hi
      have : e ∈ chat1.take k := List.getElem?_mem hi
      rw [mem_removeExistingMemoryEntries chat e (List.take_subset k chat1 this)] at hflag
      exact Bool.noConfusion hflag
    · have hik' : k < i := lt_of_le_of_ne hik (fun h => hne h.symm)
      rw [hres', List.getElem?_append_right (by omega), htklen] at hi
      obtain ⟨j, hj⟩ : ∃ j, i - k = j + 1 := ⟨i - k - 1, by omega⟩
      rw [hj, List.getElem?_cons_succ] at hi
      have : e ∈ chat1.drop k := List.getElem?_mem hi
      rw [mem_removeExistingMemoryEntries chat e (List.drop_subset k chat1 this)] at hflag
      exact Bool.noConfusion hflag

/-- Witness for C9: a conversation holding one stale memory turn and one
user turn, with `memoryPosition = 2` larger than the stripped length 1 —
the stale turn is removed and the single new marker-tagged turn sits at the
clamped index 0. -/
theorem claim_C9_witness :
    qdrantMemoryInterceptor defaultSettings "Alice" ["r1"] "mem text" 7
      [{ is_user := false, is_system := true, name := "System", mes := "old",
         send_date := .num 1, memoryFlag := true },
       { is_user := true, is_system := false, name := "U", mes := "hi!",
         send_date := .num 2, memoryFlag := false }] =
      (removeExistingMemoryEntries
          [{ is_user := false, is_system := true, name := "System", mes := "old",
             send_date := .num 1, memoryFlag := true },
           { is_user := true, is_system := false, name := "U", mes := "hi!",
             send_date := .num 2, memoryFlag := false }]).take
          ((removeExistingMemoryEntries
            [{ is_user := false, is_system := true, name := "System", mes := "old",
               send_date := .num 1, memoryFlag := true },
             { is_user := true, is_system := false, name := "U", mes := "hi!",
               send_date := .num 2, memoryFlag := false }]).length -
            defaultSettings.memoryPosition) ++
        [memoryEntryOf "mem text" 7] ++
        (removeExistingMemoryEntries
          [{ is_user := false, is_system := true, name := "System", mes := "old",
             send_date := .num 1, memoryFlag := true },
           { is_user := true, is_system := false, name := "U", mes := "hi!",
             send_date := .num 2, memoryFlag := false }]).drop
          ((removeExistingMemoryEntries
            [{ is_user := false, is_system := true, name := "System", mes := "old",
               send_date := .num 1, memoryFlag := true },
             { is_user := true, is_system := false, name := "U", mes := "hi!",
               send_date := .num 2, memoryFlag := false }]).length -
            defaultSettings.memoryPosition) ∧
    (qdrantMemoryInterceptor defaultSettings "Alice" ["r1"] "mem text" 7
      [{ is_user := false, is_system := true, name := "System", mes := "old",
         send_date := .num 1, memoryFlag := true },
       { is_user := true, is_system := false, name := "U", mes := "hi!",
         send_date := .num 2, memoryFlag := false }]).countP (·.memoryFlag) = 1 ∧
    (qdrantMemoryInterceptor defaultSettings "Alice" ["r1"] "mem text" 7
      [{ is_user := false, is_system := true, name := "System", mes := "old",
         send_date := .num 1, memoryFlag := true },
       { is_user := true, is_system := false, name := "U", mes := "hi!",
         send_date := .num 2, memoryFlag := false }])[
        (removeExistingMemoryEntries
          [{ is_user := false, is_system := true, name := "System", mes := "old",
             send_date := .num 1, memoryFlag := true },
           { is_user := true, is_system := false, name := "U", mes := "hi!",
             send_date := .num 2, memoryFlag := false }]).length -
          defaultSettings.memoryPosition]? =
      some (memoryEntryOf "mem text" 7) ∧
    (∀ i e,
      (qdrantMemoryInterceptor defaultSettings "Alice" ["r1"] "mem text" 7
        [{ is_user := false, is_system := true, name := "System", mes := "old",
           send_date := .num 1, memoryFlag := true },
         { is_user := true, is_system := false, name := "U", mes := "hi!",
           send_date := .num 2, memoryFlag := false }])[i]? = some e →
      e.memoryFlag = true →
      i = (removeExistingMemoryEntries
          [{ is_user := false, is_system := true, name := "System", mes := "old",
             send_date := .num 1, memoryFlag := true },
           { is_user := true, is_system := false, name := "U", mes := "hi!",
             send_date := .num 2, memoryFlag := false }]).length -
        defaultSettings.memoryPosition) :=
  claim_C9 defaultSettings "Alice" ["r1"] "mem text" 7
    [{ is_user := false, is_system := true, name := "System", mes := "old",
       send_date := .num 1, memoryFlag := true },
     { is_user := true, is_system := false, name := "U", mes := "hi!",
       send_date := .num 2, memoryFlag := false }]
    { is_user := true, is_system := false, name := "U", mes := "hi!",
      send_date := .num 2, memoryFlag := false }
    (by decide) (by decide) (by decide) (by decide) (by decide)

/-- Claim C10: within one flush write, every stored point carries the single
`generateUUID()` value and the once-computed embedding, is routed to its
participant's collection, and its payload is the shared chunk payload with
only `character` varying; hence any two stored points agree on id, vector
and every payload field except `character`. -/
theorem claim_C10 (s : Settings) (embedding : List Int) (uuid : String)
    (collectionReady writeOk : String → Bool) (chunk : Chunk)
    (participants : List String) :
    (∀ p, p ∈ (saveChunkToQdrant s (some embedding) uuid collectionReady writeOk
        chunk participants).2 →
      p.id = uuid ∧ p.vector = embedding ∧
      p.payload.character ∈ participants ∧
      p.collection = getCollectionName s p.payload.character ∧
      p.payload = chunkPayload chunk p.payload.character) ∧
    (∀ p q, p ∈ (saveChunkToQdrant s (some embedding) uuid collectionReady writeOk
        chunk participants).2 →
      q ∈ (saveChunkToQdrant s (some embedding) uuid collectionReady writeOk
        chunk participants).2 →
      p.id = q.id ∧ p.vector = q.vector ∧
      p.payload.text = q.payload.text ∧
      p.payload.speakers = q.payload.speakers ∧
      p.payload.messageCount = q.payload.messageCount ∧
      p.payload.timestamp = q.payload.timestamp ∧
      p.payload.messageIds = q.payload.messageIds ∧
      p.payload.isChunk = q.payload.isChunk) := by
  have key : ∀ p, p ∈ (saveChunkToQdrant s (some embedding) uuid collectionReady writeOk
      chunk participants).2 →
      p.id = uuid ∧ p.vector = embedding ∧
      p.payload.character ∈ participants ∧
      p.collection = getCollectionName s p.payload.character ∧
      p.payload = chunkPayload chunk p.payload.character := by
    intro p hp
    unfold saveChunkToQdrant at hp
    by_cases he : participants.isEmpty
    · simp [he] at hp
    · simp only [he, Bool.false_eq_true, if_false] at hp
      obtain ⟨name, hname, hsome⟩ := List.mem_filterMap.mp hp
      unfold saveOneParticipant at hsome
      by_cases hc : (collectionReady name && writeOk name) = true
      · rw [if_pos hc] at hsome
        obtain rfl := (Option.some.inj hsome).symm
        exact ⟨rfl, rfl, hname, rfl, rfl⟩
      · rw [if_neg hc] at hsome
        exact Option.noConfusion hsome
  refine ⟨key, fun p q hp hq => ?_⟩
  obtain ⟨hp1, hp2, _, _, hp5⟩ := key p hp
  obtain ⟨hq1, hq2, _, _, hq5⟩ := key q hq
  refine ⟨hp1.trans hq1.symm, hp2.trans hq2.symm, ?_, ?_, ?_, ?_, ?_, ?_⟩ <;>
    rw [hp5, hq5] <;> rfl

/-- Witness for C10: one chunk written for participants "Alice" and "Bob"
with every collection ready and every upsert succeeding — both stored
points share id and vector and differ only in the `character` payload
field. -/
theorem claim_C10_witness :
    (pointFixA.id = "u-1" ∧ pointFixA.vector = [1, 2] ∧
      pointFixA.payload.character ∈ ["Alice", "Bob"] ∧
      pointFixA.collection = getCollectionName defaultSettings pointFixA.payload.character ∧
      pointFixA.payload = chunkPayload chunkFix pointFixA.payload.character) ∧
    (pointFixA.id = pointFixB.id ∧ pointFixA.vector = pointFixB.vector ∧
      pointFixA.payload.text = pointFixB.payload.text ∧
      pointFixA.payload.speakers = pointFixB.payload.speakers ∧
      pointFixA.payload.messageCount = pointFixB.payload.messageCount ∧
      pointFixA.payload.timestamp = pointFixB.payload.timestamp ∧
      pointFixA.payload.messageIds = pointFixB.payload.messageIds ∧
      pointFixA.payload.isChunk = pointFixB.payload.isChunk) :=
  ⟨(claim_C10 defaultSettings [1, 2] "u-1" (fun _ => true) (fun _ => true)
      chunkFix ["Alice", "Bob"]).1 pointFixA (by decide),
   (claim_C10 defaultSettings [1, 2] "u-1" (fun _ => true) (fun _ => true)
      chunkFix ["Alice", "Bob"]).2 pointFixA pointFixB (by decide) (by decide)⟩

/-- The transcript-text fold of the chunk builders, rewritten as the
concatenation of the per-turn lines. -/
theorem chunkText_foldl {α : Type} (label txt : α → String) (l : List α) (a : String) :
    l.foldl (fun acc m => acc ++ label m ++ ": " ++ txt m ++ "\n") a =
      a ++ joinAll (l.map fun m => label m ++ ": " ++ txt m ++ "\n") := by
  induction l generalizing a with
  | nil => simp [joinAll]
  | cons x xs ih =>
    simp only [List.foldl_cons, List.map_cons, joinAll, ih]
    simp [String.append_assoc]

/-- `chunkText_foldl` at the buffer-path element type. -/
theorem chunkText_foldl_buf (l : List BufferedMsg) (a : String) :
    l.foldl (fun acc m =>
        acc ++ speakerLabel m.isUser m.characterName ++ ": " ++ m.text ++ "\n") a =
      a ++ joinAll (l.map fun m =>
        speakerLabel m.isUser m.characterName ++ ": " ++ m.text ++ "\n") :=
  chunkText_foldl (fun m => speakerLabel m.isUser m.characterName) (fun m => m.text) l a

/-- `chunkText_foldl` at the replay-path element type. -/
theorem chunkText_foldl_replay (l : List ReplayMsg) (a : String) :
    l.foldl (fun acc m =>
        acc ++ speakerLabel m.isUser m.characterName ++ ": " ++ m.text ++ "\n") a =
      a ++ joinAll (l.map fun m =>
        speakerLabel m.isUser m.characterName ++ ": " ++ m.text ++ "\n") :=
  chunkText_foldl (fun m => speakerLabel m.isUser m.characterName) (fun m => m.text) l a

/-- The speaker fold equals the plain `addDistinct` fold over the labels. -/
theorem foldl_addDistinct_map {α : Type} (g : α → String) (l : List α)
    (acc : List String) :
    l.foldl (fun a m => addDistinct a (g m)) acc = (l.map g).foldl addDistinct acc := by
  induction l generalizing acc with
  | nil => rfl
  | cons x xs ih => simp [ih]

/-- `foldl_addDistinct_map` at the buffer-path element type. -/
theorem foldl_addDistinct_buf (l : List BufferedMsg) (acc : List String) :
    l.foldl (fun a m => addDistinct a (speakerLabel m.isUser m.characterName)) acc =
      (l.map fun m => speakerLabel m.isUser m.characterName).foldl addDistinct acc :=
  foldl_addDistinct_map (fun m => speakerLabel m.isUser m.characterName) l acc

/-- `foldl_addDistinct_map` at the replay-path element type. -/
theorem foldl_addDistinct_replay (l : List ReplayMsg) (acc : List String) :
    l.foldl (fun a m => addDistinct a (speakerLabel m.isUser m.characterName)) acc =
      (l.map fun m => speakerLabel m.isUser m.characterName).foldl addDistinct acc :=
  foldl_addDistinct_map (fun m => speakerLabel m.isUser m.characterName) l acc

/-- The speaker-set fold preserves freedom from duplicates. -/
theorem foldl_addDistinct_nodup (l : List String) (acc : List String) (h : acc.Nodup) :
    (l.foldl addDistinct acc).Nodup := by
  induction l generalizing acc with
  | nil => exact h
  | cons x xs ih =>
    refine ih _ ?_
    unfold addDistinct
    by_cases hx : x ∈ acc
    · simpa [hx] using h
    · simp only [hx, if_neg, if_false]
      rw [List.nodup_append]
      exact ⟨h, List.nodup_singleton x, fun a ha hax => hx (by
        rw [List.mem_singleton.mp hax] at ha
        exact ha)⟩

/-- The speaker-set fold collects exactly the distinct labels. -/
theorem foldl_addDistinct_toFinset (l acc : List String) :
    (l.foldl addDistinct acc).toFinset = acc.toFinset ∪ l.toFinset := by
  induction l generalizing acc with
  | nil => simp
  | cons x xs ih =>
    simp only [List.foldl_cons, ih, List.toFinset_cons]
    by_cases hx : x ∈ acc
    · rw [show addDistinct acc x = acc from by simp [addDistinct, hx]]
      ext y
      simp only [Finset.mem_union, List.mem_toFinset, Finset.mem_insert]
      constructor
      · tauto
      · rintro (h | h | h)
        · exact Or.inl h
        · subst h; exact Or.inl hx
        · exact Or.inr h
    · rw [show addDistinct acc x = acc ++ [x] from by simp [addDistinct, hx]]
      rw [List.toFinset_append]
      ext y
      simp only [Finset.mem_union, List.mem_toFinset, List.mem_singleton,
        Finset.mem_insert]
      tauto

/-- The oldest-timestamp fold started from a seed yields the minimum of the
seed and the list. -/
theorem foldl_oldest_aux (l : List Int) (t0 : Int) :
    ∃ t, l.foldl (fun acc v =>
        match acc with
        | none => some v
        | some u => if v < u then some v else some u) (some t0) = some t ∧
      (t = t0 ∨ t ∈ l) ∧ t ≤ t0 ∧ ∀ u ∈ l, t ≤ u := by
  induction l generalizing t0 with
  | nil => exact ⟨t0, rfl, Or.inl rfl, le_refl t0, by simp⟩
  | cons x xs ih =>
    simp only [List.foldl_cons]
    by_cases hx : x < t0
    · rw [if_pos hx]
      obtain ⟨t, h1, h2, h3, h4⟩ := ih x
      refine ⟨t, h1, ?_, by omega, ?_⟩
      · rcases h2 with h | h
        · exact Or.inr (by simp [h])
        · exact Or.inr (by simp [h])
      · intro u hu
        rcases List.mem_cons.mp hu with h | h
        · omega
        · exact h4 u h
    · rw [if_neg hx]
      obtain ⟨t, h1, h2, h3, h4⟩ := ih t0
      refine ⟨t, h1, ?_, h3, ?_⟩
      · rcases h2 with h | h
        · exact Or.inl h
        · exact Or.inr (by simp [h])
      · intro u hu
        rcases List.mem_cons.mp hu with h | h
        · omega
        · exact h4 u h

/-- The oldest-timestamp fold over a non-empty list yields a member that is
a lower bound. -/
theorem foldl_oldest (l : List Int) (hl : l ≠ []) :
    ∃ t, l.foldl (fun acc v =>
        match acc with
        | none => some v
        | some u => if v < u then some v else some u) none = some t ∧
      t ∈ l ∧ ∀ u ∈ l, t ≤ u := by
  cases l with
  | nil => exact absurd rfl hl
  | cons x xs =>
    simp only [List.foldl_cons]
    obtain ⟨t, h1, h2, h3, h4⟩ := foldl_oldest_aux xs x
    refine ⟨t, h1, ?_, ?_⟩
    · rcases h2 with h | h
      · simp [h]
      · simp [h]
    · intro u hu
      rcases List.mem_cons.mp hu with h | h
      · omega
      · exact h4 u h

/-- Claim C8: for a non-empty buffer the live-path builder returns a chunk
whose text is the date line (omitted when formatting fails) followed by the
trimmed "label: text" lines with user turns labelled "You", whose speakers
are the distinct labels, whose member ids and count match the turns, and
whose timestamp is the assembly time; the replay-path builder agrees on all
renderings but stamps the minimum member timestamp. -/
theorem claim_C8 (formatDateISO : Int → Option String) (now : Int)
    (buf : List BufferedMsg) (hbuf : buf ≠ [])
    (msgs : List ReplayMsg) (hmsgs : msgs ≠ []) :
    (∃ c, createChunkFromBuffer formatDateISO now buf = some c ∧
      c.text = (match formatDateISO now with
        | some d => "[" ++ d ++ "]\n"
        | none => "") ++
        jsTrim (joinAll (buf.map fun m =>
          (if m.isUser then "You" else m.characterName) ++ ": " ++ m.text ++ "\n")) ∧
      c.speakers.Nodup ∧
      c.speakers.toFinset =
        (buf.map fun m => if m.isUser then "You" else m.characterName).toFinset ∧
      c.messageIds = buf.map (·.messageId) ∧
      c.messageCount = buf.length ∧
      c.timestamp = now) ∧
    ((createChunkFromMessages formatDateISO now msgs).messageCount = msgs.length ∧
      (createChunkFromMessages formatDateISO now msgs).messageIds =
        msgs.map (·.messageId) ∧
      (createChunkFromMessages formatDateISO now msgs).speakers.Nodup ∧
      (createChunkFromMessages formatDateISO now msgs).speakers.toFinset =
        (msgs.map fun m => if m.isUser then "You" else m.characterName).toFinset ∧
      (createChunkFromMessages formatDateISO now msgs).timestamp ∈
        msgs.map (·.timestamp) ∧
      (∀ u ∈ msgs.map (·.timestamp),
        (createChunkFromMessages formatDateISO now msgs).timestamp ≤ u) ∧
      (createChunkFromMessages formatDateISO now msgs).text =
        (match formatDateISO (createChunkFromMessages formatDateISO now msgs).timestamp with
          | some d => "[" ++ d ++ "]\n"
          | none => "") ++
          jsTrim (joinAll (msgs.map fun m =>
            (if m.isUser then "You" else m.characterName) ++ ": " ++ m.text ++ "\n"))) := by
  constructor
  · obtain ⟨b, bs, rfl⟩ : ∃ b bs, buf = b :: bs := by
      cases buf with
      | nil => exact absurd rfl hbuf
      | cons b bs => exact ⟨b, bs, rfl⟩
    refine ⟨_, rfl, ?_, ?_, ?_, rfl, rfl, rfl⟩
    · show (match formatDateISO now with
        | some dateStr => "[" ++ dateStr ++ "]\n" ++
            jsTrim ((b :: bs).foldl (fun acc (m : BufferedMsg) =>
              acc ++ speakerLabel m.isUser m.characterName ++ ": " ++ m.text ++ "\n") "")
        | none => jsTrim ((b :: bs).foldl (fun acc (m : BufferedMsg) =>
            acc ++ speakerLabel m.isUser m.characterName ++ ": " ++ m.text ++ "\n") "")) = _
      rw [chunkText_foldl_buf]
      cases hfmt : formatDateISO now <;>
        simp [speakerLabel, String.empty_append, String.append_assoc]
    · show ((b :: bs).foldl (fun acc (m : BufferedMsg) =>
        addDistinct acc (speakerLabel m.isUser m.characterName)) []).Nodup
      rw [foldl_addDistinct_buf]
      exact foldl_addDistinct_nodup _ [] List.nodup_nil
    · show ((b :: bs).foldl (fun acc (m : BufferedMsg) =>
        addDistinct acc (speakerLabel m.isUser m.characterName)) []).toFinset = _
      rw [foldl_addDistinct_buf, foldl_addDistinct_toFinset]
      simp [speakerLabel]
  · have hts : ∃ t, msgs.foldl (fun acc (m : ReplayMsg) =>
        match acc with
        | none => some m.timestamp
        | some u => if m.timestamp < u then some m.timestamp else some u) none = some t ∧
        t ∈ msgs.map (·.timestamp) ∧ ∀ u ∈ msgs.map (·.timestamp), t ≤ u := by
      have hmap : msgs.map (·.timestamp) ≠ [] := by
        cases msgs with
        | nil => exact absurd rfl hmsgs
        | cons m ms => simp
      obtain ⟨t, h1, h2, h3⟩ := foldl_oldest (msgs.map (·.timestamp)) hmap
      rw [List.foldl_map] at h1
      exact ⟨t, h1, h2, h3⟩
    obtain ⟨t, hfold, htmem, htle⟩ := hts
    have htime : (createChunkFromMessages formatDateISO now msgs).timestamp = t := by
      show (match msgs.foldl (fun acc (m : ReplayMsg) =>
          match acc with
          | none => some m.timestamp
          | some u => if m.timestamp < u then some m.timestamp else some u) none with
        | some u => u
        | none => now) = t
      rw [hfold]
    refine ⟨rfl, rfl, ?_, ?_, ?_, ?_, ?_⟩
    · show (msgs.foldl (fun acc (m : ReplayMsg) =>
        addDistinct acc (speakerLabel m.isUser m.characterName)) []).Nodup
      rw [foldl_addDistinct_replay]
      exact foldl_addDistinct_nodup _ [] List.nodup_nil
    · show (msgs.foldl (fun acc (m : ReplayMsg) =>
        addDistinct acc (speakerLabel m.isUser m.characterName)) []).toFinset = _
      rw [foldl_addDistinct_replay, foldl_addDistinct_toFinset]
      simp [speakerLabel]
    · rw [htime]; exact htmem
    · intro u hu; rw [htime]; exact htle u hu
    · rw [htime]
      show (match msgs.foldl (fun acc (m : ReplayMsg) =>
          match acc with
          | none => some m.timestamp
          | some u => if m.timestamp < u then some m.timestamp else some u) none with
        | some u =>
          match formatDateISO u with
          | some dateStr => "[" ++ dateStr ++ "]\n" ++
              jsTrim (msgs.foldl (fun acc (m : ReplayMsg) =>
                acc ++ speakerLabel m.isUser m.characterName ++ ": " ++ m.text ++ "\n") "")
          | none => jsTrim (msgs.foldl (fun acc (m : ReplayMsg) =>
              acc ++ speakerLabel m.isUser m.characterName ++ ": " ++ m.text ++ "\n") "")
        | none => jsTrim (msgs.foldl (fun acc (m : ReplayMsg) =>
            acc ++ speakerLabel m.isUser m.characterName ++ ": " ++ m.text ++ "\n") "")) = _
      rw [hfold, chunkText_foldl_replay]
      show (match formatDateISO t with
        | some dateStr => "[" ++ dateStr ++ "]\n" ++
            jsTrim ("" ++ joinAll (msgs.map fun (m : ReplayMsg) =>
              speakerLabel m.isUser m.characterName ++ ": " ++ m.text ++ "\n"))
        | none => jsTrim ("" ++ joinAll (msgs.map fun (m : ReplayMsg) =>
            speakerLabel m.isUser m.characterName ++ ": " ++ m.text ++ "\n"))) = _
      rcases formatDateISO t with _ | d <;>
        simp [speakerLabel, String.empty_append, String.append_assoc]

/-- Witness for C8 at the claim's example: turns [you "hi", Bob "hey"] render
as "[date]\nYou: hi\nBob: hey" with speakers {You, Bob}, count 2 and the
respective representative timestamps. -/
theorem claim_C8_witness :
    createChunkFromBuffer (fun _ => some "2026-10-11") 100
        [{ text := "hi", characterName := "Alice", isUser := true, messageId := "id1" },
         { text := "hey", characterName := "Bob", isUser := false, messageId := "id2" }] =
      some
        { text := "[2026-10-11]\nYou: hi\nBob: hey"
          speakers := ["You", "Bob"]
          messageIds := ["id1", "id2"]
          messageCount := 2
          timestamp := 100 } ∧
    (createChunkFromMessages (fun _ => some "2026-10-11") 100
        [{ text := "hi", characterName := "Alice", isUser := true, messageId := "r1",
           timestamp := 9 },
         { text := "hey", characterName := "Bob", isUser := false, messageId := "r2",
           timestamp := 4 }]).timestamp = 4 ∧
    (∃ c, createChunkFromBuffer (fun _ => some "2026-10-11") 100
        [{ text := "hi", characterName := "Alice", isUser := true, messageId := "id1" },
         { text := "hey", characterName := "Bob", isUser := false, messageId := "id2" }] =
          some c ∧
      c.messageCount = 2 ∧ c.timestamp = 100) := by
  refine ⟨by decide, by decide, ?_⟩
  obtain ⟨⟨c, hc, _, _, _, _, h5, h6⟩, _⟩ := claim_C8 (fun _ => some "2026-10-11") 100
    [{ text := "hi", characterName := "Alice", isUser := true, messageId := "id1" },
     { text := "hey", characterName := "Bob", isUser := false, messageId := "id2" }]
    (by decide)
    [{ text := "hi", characterName := "Alice", isUser := true, messageId := "r1",
       timestamp := 9 },
     { text := "hey", characterName := "Bob", isUser := false, messageId := "r2",
       timestamp := 4 }]
    (by decide)
  exact ⟨c, hc, by rw [h5]; rfl, h6⟩

/-- A chunk built from a non-empty group has a non-empty member id list. -/
theorem createChunkFromMessages_ids_ne (fmt : Int → Option String) (now : Int)
    (l : List ReplayMsg) (hl : l ≠ []) :
    (createChunkFromMessages fmt now l).messageIds ≠ [] := by
  show l.map (·.messageId) ≠ []
  cases l with
  | nil => exact absurd rfl hl
  | cons x xs => simp

/-- `packMessage` only ever closes non-empty groups, so the invariant that
every produced chunk has member ids is preserved. -/
theorem packMessage_ids_ne (s : Settings) (fmt : Int → Option String) (now : Int)
    (st : PackState) (m : ReplayMsg)
    (h : ∀ c ∈ st.chunks, c.messageIds ≠ []) :
    ∀ c ∈ (packMessage s fmt now st m).chunks, c.messageIds ≠ [] := by
  intro c hc
  simp only [packMessage] at hc
  split_ifs at hc with h1 h2 h2 <;>
    simp only [List.mem_append, List.mem_singleton] at hc
  · rcases hc with (hc | rfl) | rfl
    · exact h c hc
    · exact createChunkFromMessages_ids_ne fmt now _ h1.2
    · exact createChunkFromMessages_ids_ne fmt now _ (by simp)
  · rcases hc with hc | rfl
    · exact h c hc
    · exact createChunkFromMessages_ids_ne fmt now _ h1.2
  · rcases hc with hc | rfl
    · exact h c hc
    · exact createChunkFromMessages_ids_ne fmt now _ (by simp)
  · exact h c hc

/-- The packing fold preserves the non-empty-ids invariant. -/
theorem packFold_ids_ne (s : Settings) (fmt : Int → Option String) (now : Int)
    (l : List ReplayMsg) :
    ∀ (st : PackState), (∀ c ∈ st.chunks, c.messageIds ≠ []) →
      ∀ c ∈ (l.foldl (packMessage s fmt now) st).chunks, c.messageIds ≠ [] := by
  induction l with
  | nil => intro st h; exact h
  | cons x xs ih =>
    intro st h
    exact ih _ (packMessage_ids_ne s fmt now st x h)

/-- Every chunk produced by `createChunksFromChat` has member ids. -/
theorem createChunksFromChat_ids_ne (s : Settings) (fmt : Int → Option String)
    (now : Int) (messages : List ChatMsg) (characterName : String) :
    ∀ c ∈ createChunksFromChat s fmt now messages characterName,
      c.messageIds ≠ [] := by
  intro c hc
  simp only [createChunksFromChat] at hc
  rcases List.mem_append.mp hc with h | h
  · exact packFold_ids_ne s fmt now _ _ (by simp) c h
  · split_ifs at h with hne
    · rw [List.mem_singleton.mp h]
      exact createChunkFromMessages_ids_ne fmt now _ hne
    · cases h

/-- `chunkExists` is monotone under storage growth. -/
theorem chunkExists_append (storage ext : List (List String)) (ids : List String)
    (h : chunkExists storage ids = true) :
    chunkExists (storage ++ ext) ids = true := by
  unfold chunkExists at *
  rw [List.any_append, h, Bool.true_or]

/-- A freshly stored non-empty id list is found by `chunkExists`. -/
theorem chunkExists_self (storage : List (List String)) (ids : List String)
    (hids : ids ≠ []) : chunkExists (storage ++ [ids]) ids = true := by
  unfold chunkExists
  rw [List.any_append, Bool.or_eq_true]
  refine Or.inr ?_
  cases ids with
  | nil => exact absurd rfl hids
  | cons i is => simp

/-- `reindexChunks` only appends to storage. -/
theorem reindexChunks_storage (chunks : List Chunk) :
    ∀ (r0 : ReindexResult), ∃ ext,
      (reindexChunks chunks r0).storage = r0.storage ++ ext := by
  induction chunks with
  | nil => exact fun r0 => ⟨[], by simp [reindexChunks]⟩
  | cons x xs ih =>
    intro r0
    show ∃ ext, (reindexChunks xs (reindexStep r0 x)).storage = r0.storage ++ ext
    obtain ⟨ext, hext⟩ := ih (reindexStep r0 x)
    rw [hext]
    unfold reindexStep
    split_ifs with h
    · exact ⟨ext, rfl⟩
    · exact ⟨x.messageIds :: ext, by simp⟩

/-- After a reindex run, every processed chunk is found in the resulting
storage (the skipped ones by the id that caused the skip, the saved ones by
their own ids). -/
theorem reindexChunks_all_exist (chunks : List Chunk) :
    ∀ (r0 : ReindexResult), (∀ c ∈ chunks, c.messageIds ≠ []) →
      ∀ c ∈ chunks,
        chunkExists (reindexChunks chunks r0).storage c.messageIds = true := by
  induction chunks with
  | nil => intro r0 _ c hc; cases hc
  | cons x xs ih =>
    intro r0 hne c hc
    have hstep : reindexChunks (x :: xs) r0 = reindexChunks xs (reindexStep r0 x) := rfl
    rcases List.mem_cons.mp hc with rfl | hcs
    · obtain ⟨ext, hext⟩ := reindexChunks_storage xs (reindexStep r0 c)
      rw [hstep, hext]
      have hbase : chunkExists (reindexStep r0 c).storage c.messageIds = true := by
        unfold reindexStep
        split_ifs with h
        · exact h
        · exact chunkExists_self r0.storage c.messageIds
            (hne c (List.mem_cons_self c xs))
      exact chunkExists_append _ ext _ hbase
    · exact ih (reindexStep r0 x)
        (fun c' hc' => hne c' (List.mem_cons_of_mem x hc')) c hcs

/-- A reindex run in which every chunk already exists in the starting
storage only counts skips and leaves everything else unchanged. -/
theorem reindexChunks_all_skip (chunks : List Chunk) :
    ∀ (r0 : ReindexResult),
      (∀ c ∈ chunks, chunkExists r0.storage c.messageIds = true) →
      reindexChunks chunks r0 =
        { saved := r0.saved
          skipped := r0.skipped + chunks.length
          storage := r0.storage } := by
  induction chunks with
  | nil => intro r0 _; simp [reindexChunks]
  | cons x xs ih =>
    intro r0 hall
    have hx := hall x (List.mem_cons_self x xs)
    have hstep : reindexChunks (x :: xs) r0 = reindexChunks xs (reindexStep r0 x) := rfl
    have hstepval : reindexStep r0 x = { r0 with skipped := r0.skipped + 1 } := by
      unfold reindexStep
      rw [if_pos hx]
    rw [hstep, hstepval,
      ih { r0 with skipped := r0.skipped + 1 } (fun c hc => hall c (List.mem_cons_of_mem x hc))]
    simp only [List.length_cons]
    congr 1
    omega

/-- Each processed chunk bumps exactly one of the two counters. -/
theorem reindexChunks_counts (chunks : List Chunk) :
    ∀ (r0 : ReindexResult),
      (reindexChunks chunks r0).saved + (reindexChunks chunks r0).skipped =
        r0.saved + r0.skipped + chunks.length := by
  induction chunks with
  | nil => intro r0; simp [reindexChunks]
  | cons x xs ih =>
    intro r0
    have hstep : reindexChunks (x :: xs) r0 = reindexChunks xs (reindexStep r0 x) := rfl
    rw [hstep, ih (reindexStep r0 x)]
    unfold reindexStep
    split_ifs <;> simp <;> omega

/-- The whole reindex run equals the chunk loop over the concatenation of
every file's chunks. -/
theorem indexCharacterChats_eq (s : Settings) (fmt : Int → Option String)
    (now : Int) (characterName : String) (chatFiles : List (List ChatMsg))
    (storage0 : List (List String)) :
    indexCharacterChats s fmt now characterName chatFiles storage0 =
      reindexChunks
        (chatFiles.flatMap fun f => createChunksFromChat s fmt now f characterName)
        { saved := 0, skipped := 0, storage := storage0 } := by
  suffices h : ∀ (files : List (List ChatMsg)) (r0 : ReindexResult),
      files.foldl
        (fun r f => reindexChunks (createChunksFromChat s fmt now f characterName) r) r0 =
      reindexChunks
        (files.flatMap fun f => createChunksFromChat s fmt now f characterName) r0 by
    exact h chatFiles _
  intro files
  induction files with
  | nil => intro r0; rfl
  | cons f fs ih =>
    intro r0
    simp only [List.foldl_cons, List.flatMap_cons]
    rw [ih]
    unfold reindexChunks
    rw [List.foldl_append]

/-- Claim C5: rerunning `indexCharacterChats` over the same unchanged
transcript set against storage that faithfully reports membership of what
was written saves nothing the second time; and when the first run skipped
nothing, the second run's skip count equals the first run's save count —
member-id overlap is the identity key making the rerun idempotent. -/
theorem claim_C5 (s : Settings) (fmt : Int → Option String) (now : Int)
    (characterName : String) (chatFiles : List (List ChatMsg))
    (storage0 : List (List String)) :
    (indexCharacterChats s fmt now characterName chatFiles
      (indexCharacterChats s fmt now characterName chatFiles storage0).storage).saved = 0 ∧
    ((indexCharacterChats s fmt now characterName chatFiles storage0).skipped = 0 →
      (indexCharacterChats s fmt now characterName chatFiles
        (indexCharacterChats s fmt now characterName chatFiles storage0).storage).skipped =
      (indexCharacterChats s fmt now characterName chatFiles storage0).saved) := by
  have hne : ∀ c ∈ (chatFiles.flatMap fun f =>
      createChunksFromChat s fmt now f characterName), c.messageIds ≠ [] := by
    intro c hc
    obtain ⟨f, _, hcf⟩ := List.mem_flatMap.mp hc
    exact createChunksFromChat_ids_ne s fmt now f characterName c hcf
  have hall : ∀ c ∈ (chatFiles.flatMap fun f =>
      createChunksFromChat s fmt now f characterName),
      chunkExists (indexCharacterChats s fmt now characterName chatFiles
        storage0).storage c.messageIds = true := by
    rw [indexCharacterChats_eq]
    exact reindexChunks_all_exist _ _ hne
  have hrun2 : indexCharacterChats s fmt now characterName chatFiles
      (indexCharacterChats s fmt now characterName chatFiles storage0).storage =
      { saved := 0
        skipped := 0 + (chatFiles.flatMap fun f =>
          createChunksFromChat s fmt now f characterName).length
        storage := (indexCharacterChats s fmt now characterName chatFiles
          storage0).storage } := by
    rw [indexCharacterChats_eq s fmt now characterName chatFiles
      (indexCharacterChats s fmt now characterName chatFiles storage0).storage]
    exact reindexChunks_all_skip _ _ hall
  have hcounts : (indexCharacterChats s fmt now characterName chatFiles storage0).saved +
      (indexCharacterChats s fmt now characterName chatFiles storage0).skipped =
      (chatFiles.flatMap fun f => createChunksFromChat s fmt now f characterName).length := by
    rw [indexCharacterChats_eq]
    have := reindexChunks_counts
      (chatFiles.flatMap fun f => createChunksFromChat s fmt now f characterName)
      { saved := 0, skipped := 0, storage := storage0 }
    simpa using this
  constructor
  · rw [hrun2]
  · intro hskip
    rw [hrun2]
    simp only [Nat.zero_add]
    omega

/-- Witness for C5: one transcript of three accepted turns packs into one
chunk; the first run over empty storage saves it (skipping nothing), the
second run saves nothing and skips exactly that one chunk. -/
theorem claim_C5_witness :
    (indexCharacterChats
      { defaultSettings with minMessageLength := 1, chunkMinSize := 1 }
      (fun _ => none) 0 "Alice"
      [[{ is_system := false, is_user := true, mes := "hello", send_date := 1 },
        { is_system := false, is_user := true, mes := "hello", send_date := 2 },
        { is_system := false, is_user := true, mes := "hello", send_date := 3 }]]
      (indexCharacterChats
        { defaultSettings with minMessageLength := 1, chunkMinSize := 1 }
        (fun _ => none) 0 "Alice"
        [[{ is_system := false, is_user := true, mes := "hello", send_date := 1 },
          { is_system := false, is_user := true, mes := "hello", send_date := 2 },
          { is_system := false, is_user := true, mes := "hello", send_date := 3 }]]
        []).storage).saved = 0 ∧
    (indexCharacterChats
      { defaultSettings with minMessageLength := 1, chunkMinSize := 1 }
      (fun _ => none) 0 "Alice"
      [[{ is_system := false, is_user := true, mes := "hello", send_date := 1 },
        { is_system := false, is_user := true, mes := "hello", send_date := 2 },
        { is_system := false, is_user := true, mes := "hello", send_date := 3 }]]
      (indexCharacterChats
        { defaultSettings with minMessageLength := 1, chunkMinSize := 1 }
        (fun _ => none) 0 "Alice"
        [[{ is_system := false, is_user := true, mes := "hello", send_date := 1 },
          { is_system := false, is_user := true, mes := "hello", send_date := 2 },
          { is_system := false, is_user := true, mes := "hello", send_date := 3 }]]
        []).storage).skipped =
    (indexCharacterChats
      { defaultSettings with minMessageLength := 1, chunkMinSize := 1 }
      (fun _ => none) 0 "Alice"
      [[{ is_system := false, is_user := true, mes := "hello", send_date := 1 },
        { is_system := false, is_user := true, mes := "hello", send_date := 2 },
        { is_system := false, is_user := true, mes := "hello", send_date := 3 }]]
      []).saved :=
  ⟨(claim_C5 { defaultSettings with minMessageLength := 1, chunkMinSize := 1 }
      (fun _ => none) 0 "Alice"
      [[{ is_system := false, is_user := true, mes := "hello", send_date := 1 },
        { is_system := false, is_user := true, mes := "hello", send_date := 2 },
        { is_system := false, is_user := true, mes := "hello", send_date := 3 }]] []).1,
   (claim_C5 { defaultSettings with minMessageLength := 1, chunkMinSize := 1 }
      (fun _ => none) 0 "Alice"
      [[{ is_system := false, is_user := true, mes := "hello", send_date := 1 },
        { is_system := false, is_user := true, mes := "hello", send_date := 2 },
        { is_system := false, is_user := true, mes := "hello", send_date := 3 }]] []).2
     (by decide)⟩

end QdrantMemory
